import Mathlib

set_option maxHeartbeats 1000000

namespace TiCDC

/-!  Shallow embedding of the per-changefeed maintainer core:
the replication span database (`ReplicationDB`), the barrier event state
machine (`BarrierEvent`) and the maintainer controller's status handling.
Go maps are embedded as association lists; Go pointers into the database are
embedded as dispatcher ids that are dereferenced through the single task
store, so that a field mutation is visible through every index, exactly as
pointer aliasing makes it in the source. -/

abbrev DispatcherID := Nat
abbrev NodeID := String
abbrev TableID := Int
abbrev SchemaID := Int

/-- Modelled from the spec: a table span {table id, start key (inclusive),
end key (exclusive)}; `heartbeatpb.TableSpan` is declared outside the given
sources, keys are abstracted as naturals. -/
structure TableSpan where
  tableID : TableID
  startKey : Nat
  endKey : Nat
deriving DecidableEq

/-- Modelled from the spec: the unit of scheduling (`SpanReplication`, whose
definition is outside the given sources).  The fields are exactly the ones the
code under verification reads: identity, span, mutable schema id, the TSO
client handle, the reported checkpoint ts and the assigned node id (empty iff
not scheduled). -/
structure SpanReplication where
  changefeedID : Nat
  id : DispatcherID
  tsoClient : Nat
  schemaID : SchemaID
  span : TableSpan
  checkpointTs : Nat
  nodeID : NodeID
deriving DecidableEq

/-- Modelled from the spec: `NewReplicaSet` builds a fresh, unscheduled span
replication (empty node id). -/
def NewReplicaSet (cf : Nat) (id : DispatcherID) (tso : Nat) (sid : SchemaID)
    (sp : TableSpan) (ts : Nat) : SpanReplication :=
  { changefeedID := cf, id := id, tsoClient := tso, schemaID := sid, span := sp,
    checkpointTs := ts, nodeID := "" }

/-- Modelled from the spec: the partition a task occupies in the embedded
generic lifecycle tracker (`replica.ReplicationDB`, outside the given
sources): absent, scheduling or replicating; `unpart` is for the DDL span,
which is stored in `allTasks` but never enters a schedulable partition. -/
inductive SpanState where
  | absentS
  | schedulingS
  | replicatingS
  | unpart
deriving DecidableEq

structure TaskEntry where
  span : SpanReplication
  state : SpanState
deriving DecidableEq

/-- A Go `map[int64]map[DispatcherID]*SpanReplication` secondary index:
an association list from key to the inner set of dispatcher ids. -/
abbrev Index := List (Int × List DispatcherID)

/-- The in-memory replication database of `part_000`: the task store
`allTasks` (span value plus lifecycle partition) and the two secondary
indices, which hold dispatcher ids (the embedding of the shared pointers). -/
structure ReplicationDB where
  changefeedID : Nat
  allTasks : List TaskEntry
  schemaTasks : Index
  tableTasks : Index
  ddlSpan : SpanReplication
deriving DecidableEq

/-! ### Association-list primitives for the secondary indices -/

def idxLookup (l : Index) (k : Int) : List DispatcherID :=
  match l.find? (fun p => p.1 == k) with
  | some p => p.2
  | none => []

def idxInsert (l : Index) (k : Int) (id : DispatcherID) : Index :=
  if (l.find? (fun p => p.1 == k)).isSome then
    l.map (fun p => if p.1 == k then (p.1, if p.2.contains id then p.2 else p.2 ++ [id]) else p)
  else
    l ++ [(k, [id])]

def idxRemove (l : Index) (k : Int) (id : DispatcherID) : Index :=
  (l.map (fun p => if p.1 == k then (p.1, p.2.filter (fun x => x != id)) else p)).filter
    (fun p => !(p.1 == k && p.2.isEmpty))

def idxSet (l : Index) (k : Int) (v : List DispatcherID) : Index :=
  if (l.find? (fun p => p.1 == k)).isSome then
    l.map (fun p => if p.1 == k then (p.1, v) else p)
  else
    l ++ [(k, v)]

def getEntry (db : ReplicationDB) (id : DispatcherID) : Option TaskEntry :=
  db.allTasks.find? (fun e => e.span.id == id)

/-- `GetTaskByID` (part_000:63): look the span up in `allTasks`. -/
def GetTaskByID (db : ReplicationDB) (id : DispatcherID) : Option SpanReplication :=
  (getEntry db id).map (fun e => e.span)

def upsertTask (l : List TaskEntry) (e : TaskEntry) : List TaskEntry :=
  if l.any (fun x => x.span.id == e.span.id) then
    l.map (fun x => if x.span.id == e.span.id then e else x)
  else
    l ++ [e]

/-! ### Database operations (part_000) -/

/-- `addToSchemaAndTableMap` (part_000:356). -/
def addToSchemaAndTableMap (db : ReplicationDB) (s : SpanReplication) : ReplicationDB :=
  { db with
    schemaTasks := idxInsert db.schemaTasks s.schemaID s.id,
    tableTasks := idxInsert db.tableTasks s.span.tableID s.id }

/-- One span of `removeSpanUnLock` (part_000:337): drop it from the tracker
partitions and `allTasks`, and unindex it from both secondary indices, pruning
inner maps that become empty.  The index keys are read from the argument span,
exactly as the source reads them through the passed pointer. -/
def removeSpan (db : ReplicationDB) (s : SpanReplication) : ReplicationDB :=
  { db with
    allTasks := db.allTasks.filter (fun e => e.span.id != s.id),
    schemaTasks := idxRemove db.schemaTasks s.schemaID s.id,
    tableTasks := idxRemove db.tableTasks s.span.tableID s.id }

/-- One span of `addAbsentReplicaSetUnLock` (part_000:328): store the span,
place it in the absent partition, and index it. -/
def addAbsentOne (db : ReplicationDB) (s : SpanReplication) : ReplicationDB :=
  addToSchemaAndTableMap
    { db with allTasks := upsertTask db.allTasks { span := s, state := SpanState.absentS } } s

def addAbsentReplicaSetUnLock (db : ReplicationDB) (spans : List SpanReplication) :
    ReplicationDB :=
  spans.foldl addAbsentOne db

/-- `AddAbsentReplicaSet` (part_000:235). -/
def AddAbsentReplicaSet (db : ReplicationDB) (spans : List SpanReplication) : ReplicationDB :=
  addAbsentReplicaSetUnLock db spans

/-- `AddReplicatingSpan` (part_000:226): install a span that is already
scheduled to a dispatcher; it enters the replicating partition. -/
def AddReplicatingSpan (db : ReplicationDB) (s : SpanReplication) : ReplicationDB :=
  addToSchemaAndTableMap
    { db with allTasks := upsertTask db.allTasks { span := s, state := SpanState.replicatingS } }
    s

/-- `reset` (part_000:398): empty all three maps. -/
def resetDB (db : ReplicationDB) : ReplicationDB :=
  { db with allTasks := [], schemaTasks := [], tableTasks := [] }

/-- `putDDLDispatcher` (part_000:406): put the DDL span into `allTasks` and
overwrite its table and schema index slots with singleton inner maps. -/
def putDDLDispatcher (db : ReplicationDB) (ddl : SpanReplication) : ReplicationDB :=
  { db with
    allTasks := upsertTask db.allTasks { span := ddl, state := SpanState.unpart },
    tableTasks := idxSet db.tableTasks ddl.span.tableID [ddl.id],
    schemaTasks := idxSet db.schemaTasks ddl.schemaID [ddl.id] }

/-- `NewReplicaSetDB` (part_000:49): reset then seed the DDL dispatcher. -/
def NewReplicaSetDB (cf : Nat) (ddl : SpanReplication) : ReplicationDB :=
  putDDLDispatcher
    { changefeedID := cf, allTasks := [], schemaTasks := [], tableTasks := [], ddlSpan := ddl }
    ddl

/-- `GetTasksBySchemaID` (part_000:176). -/
def GetTasksBySchemaID (db : ReplicationDB) (sid : SchemaID) : List SpanReplication :=
  (idxLookup db.schemaTasks sid).filterMap (fun id => GetTaskByID db id)

/-- `GetTaskSizeBySchemaID` (part_000:164). -/
def GetTaskSizeBySchemaID (db : ReplicationDB) (sid : SchemaID) : Nat :=
  (idxLookup db.schemaTasks sid).length

/-- `GetTasksByTableIDs` (part_000:129). -/
def GetTasksByTableIDs (db : ReplicationDB) (tids : List TableID) : List SpanReplication :=
  tids.foldl
    (fun acc tid => acc ++ (idxLookup db.tableTasks tid).filterMap (fun id => GetTaskByID db id))
    []

/-- `GetAllTasks` (part_000:143). -/
def GetAllTasks (db : ReplicationDB) : List SpanReplication :=
  db.allTasks.map (fun e => e.span)

/-- `TaskSize` (part_000:71). -/
def TaskSize (db : ReplicationDB) : Nat :=
  db.allTasks.length

/-- Modelled from the spec: `GetReplicatingWithoutLock` of the embedded
generic tracker (outside the given sources) returns the replicating
partition. -/
def GetReplicatingWithoutLock (db : ReplicationDB) : List SpanReplication :=
  (db.allTasks.filter (fun e => e.state == SpanState.replicatingS)).map (fun e => e.span)

/-- Modelled from the spec: `GetSchedulingWithoutLock` of the embedded
generic tracker (outside the given sources) returns the scheduling
partition. -/
def GetSchedulingWithoutLock (db : ReplicationDB) : List SpanReplication :=
  (db.allTasks.filter (fun e => e.state == SpanState.schedulingS)).map (fun e => e.span)

/-- `TryRemoveAll` (part_000:80): snapshot replicating ++ scheduling, then
reset the maps and re-seed the DDL dispatcher. -/
def TryRemoveAll (db : ReplicationDB) : ReplicationDB × List SpanReplication :=
  (putDDLDispatcher (resetDB db) db.ddlSpan,
    GetReplicatingWithoutLock db ++ GetSchedulingWithoutLock db)

/-- The shared inner loop of `TryRemoveByTableIDs` / `TryRemoveBySchemaID`
(part_000:100, part_000:118): remove each listed task, collecting the ones
that were scheduled (non-empty node id). -/
def tryRemoveIDs : ReplicationDB → List SpanReplication → List DispatcherID →
    ReplicationDB × List SpanReplication
  | db, acc, [] => (db, acc)
  | db, acc, id :: rest =>
    match GetTaskByID db id with
    | some task =>
      tryRemoveIDs (removeSpan db task)
        (if task.nodeID != "" then acc ++ [task] else acc) rest
    | none => tryRemoveIDs db acc rest

/-- `TryRemoveByTableIDs` (part_000:95). -/
def TryRemoveByTableIDs (db : ReplicationDB) (tids : List TableID) :
    ReplicationDB × List SpanReplication :=
  tids.foldl (fun st tid => tryRemoveIDs st.1 st.2 (idxLookup st.1.tableTasks tid)) (db, [])

/-- `TryRemoveBySchemaID` (part_000:113). -/
def TryRemoveBySchemaID (db : ReplicationDB) (sid : SchemaID) :
    ReplicationDB × List SpanReplication :=
  tryRemoveIDs db [] (idxLookup db.schemaTasks sid)

/-- `ForceRemove` (part_000:263): unknown ids are a warning and leave the
state unchanged. -/
def ForceRemove (db : ReplicationDB) (id : DispatcherID) : ReplicationDB :=
  match GetTaskByID db id with
  | none => db
  | some s => removeSpan db s

/-- One iteration of the `UpdateSchemaID` loop (part_000:286): set the span's
schema id (visible through every index, by aliasing), then move its id from
the old schema slot (pruning an emptied inner map) to the new one. -/
def updateSchemaOne (newSid : SchemaID) (db : ReplicationDB) (id : DispatcherID) :
    ReplicationDB :=
  match getEntry db id with
  | none => db
  | some e =>
    { db with
      allTasks := upsertTask db.allTasks
        { span := { e.span with schemaID := newSid }, state := e.state },
      schemaTasks := idxInsert (idxRemove db.schemaTasks e.span.schemaID id) newSid id }

/-- `UpdateSchemaID` (part_000:282): re-index every span listed under the
table id. -/
def UpdateSchemaID (db : ReplicationDB) (tid : TableID) (newSid : SchemaID) : ReplicationDB :=
  (idxLookup db.tableTasks tid).foldl (updateSchemaOne newSid) db

/-- The first loop of `ReplaceReplicaSet` (part_000:197): for each old
replication, panic (`none`) if its id is unknown, otherwise fold its
checkpoint ts into the effective checkpoint and remove it. -/
def replStep (acc : Option (ReplicationDB × Nat)) (old : SpanReplication) :
    Option (ReplicationDB × Nat) :=
  match acc with
  | none => none
  | some st =>
    if (getEntry st.1 old.id).isSome then
      some (removeSpan st.1 old, Nat.min st.2 old.checkpointTs)
    else none

def replaceRemoveOlds (db : ReplicationDB) (ts : Nat) (olds : List SpanReplication) :
    Option (ReplicationDB × Nat) :=
  olds.foldl replStep (some (db, ts))

/-- `ReplaceReplicaSet` (part_000:192).  `newIDs` stands for the stream of
fresh dispatcher ids that `common.NewDispatcherID()` produces, one per new
span.  `none` is the embedding of a panic: an unknown old id is fatal, and an
empty `oldReplications` list panics at the `oldReplications[0]` access. -/
def ReplaceReplicaSet (db : ReplicationDB) (olds : List SpanReplication)
    (newSpans : List TableSpan) (checkpointTs : Nat) (newIDs : List DispatcherID) :
    Option ReplicationDB :=
  match replaceRemoveOlds db checkpointTs olds with
  | none => none
  | some st =>
    match olds with
    | [] => none
    | old :: _ =>
      some (addAbsentReplicaSetUnLock st.1
        ((newSpans.zip newIDs).map
          (fun p => NewReplicaSet old.changefeedID p.2 old.tsoClient old.schemaID p.1 st.2)))

/-! ### Well-formedness of a database state

These are the invariants the source maintains for every reachable state
(spec section 3): ids are unique, index keys are unique, every task is
indexed under its own schema and table key, and everything an index lists
is a stored task under the matching key, with no empty inner map. -/

def idsOf (db : ReplicationDB) : List DispatcherID :=
  db.allTasks.map (fun e => e.span.id)

def WF (db : ReplicationDB) : Prop :=
  (idsOf db).Nodup ∧
  (db.schemaTasks.map Prod.fst).Nodup ∧
  (db.tableTasks.map Prod.fst).Nodup ∧
  (∀ e ∈ db.allTasks,
    e.span.id ∈ idxLookup db.schemaTasks e.span.schemaID ∧
    e.span.id ∈ idxLookup db.tableTasks e.span.span.tableID) ∧
  (∀ p ∈ db.schemaTasks, p.2 ≠ [] ∧ p.2.Nodup ∧
    ∀ id ∈ p.2, ∃ e ∈ db.allTasks, e.span.id = id ∧ e.span.schemaID = p.1) ∧
  (∀ p ∈ db.tableTasks, p.2 ≠ [] ∧ p.2.Nodup ∧
    ∀ id ∈ p.2, ∃ e ∈ db.allTasks, e.span.id = id ∧ e.span.span.tableID = p.1)

instance (db : ReplicationDB) : Decidable (WF db) := by
  unfold WF; infer_instance

/-! ### Toolkit lemmas about the store and the indices -/

theorem getEntry_eq_none_iff (db : ReplicationDB) (id : DispatcherID) :
    getEntry db id = none ↔ ∀ e ∈ db.allTasks, e.span.id ≠ id := by
  simp [getEntry, List.find?_eq_none]

theorem getEntry_some_mem {db : ReplicationDB} {id : DispatcherID} {e : TaskEntry}
    (h : getEntry db id = some e) : e ∈ db.allTasks ∧ e.span.id = id := by
  refine ⟨List.mem_of_find?_eq_some h, ?_⟩
  have h2 := List.find?_some h
  simpa using h2


theorem getEntry_isSome_iff (db : ReplicationDB) (id : DispatcherID) :
    (getEntry db id).isSome ↔ id ∈ idsOf db := by
  simp [getEntry, List.find?_isSome, idsOf]

theorem getEntry_unique {db : ReplicationDB} (hnd : (idsOf db).Nodup)
    {id : DispatcherID} {e e' : TaskEntry} (h : getEntry db id = some e)
    (h' : e' ∈ db.allTasks) (hid : e'.span.id = id) : e' = e := by
  obtain ⟨hmem, hide⟩ := getEntry_some_mem h
  exact List.inj_on_of_nodup_map hnd h' hmem (by rw [hid, hide])

theorem find?_filter_of_imp {α : Type} (l : List α) (p q : α → Bool)
    (h : ∀ a, p a = true → q a = true) : (l.filter q).find? p = l.find? p := by
  induction l with
  | nil => rfl
  | cons a t ih =>
    rw [List.filter_cons]
    by_cases hq : q a = true
    · rw [if_pos hq]
      by_cases hp : p a = true
      · rw [List.find?_cons_of_pos _ hp, List.find?_cons_of_pos _ hp]
      · rw [List.find?_cons_of_neg _ hp, List.find?_cons_of_neg _ hp, ih]
    · have hp : ¬p a = true := fun hc => hq (h a hc)
      rw [if_neg hq, List.find?_cons_of_neg _ hp, ih]

theorem getEntry_removeSpan (db : ReplicationDB) (s : SpanReplication) (id : DispatcherID) :
    getEntry (removeSpan db s) id = if id = s.id then none else getEntry db id := by
  show (db.allTasks.filter (fun e => e.span.id != s.id)).find? (fun e => e.span.id == id) = _
  split
  · next heq =>
    subst heq
    rw [List.find?_eq_none]
    intro e he
    have h2 := (List.mem_filter.mp he).2
    simp only [bne_iff_ne, ne_eq] at h2
    simp [h2]
  · next hne =>
    exact find?_filter_of_imp _ _ _ (fun a ha => by
      have ha' : a.span.id = id := by simpa using ha
      simp only [bne_iff_ne, ne_eq, ha']
      exact hne)

theorem any_id_iff (l : List TaskEntry) (id : DispatcherID) :
    l.any (fun x => x.span.id == id) = true ↔ ∃ x ∈ l, x.span.id = id := by
  simp [List.any_eq_true]

theorem upsert_absent {l : List TaskEntry} {e : TaskEntry}
    (h : ¬ l.any (fun x => x.span.id == e.span.id) = true) :
    upsertTask l e = l ++ [e] := by
  unfold upsertTask
  rw [if_neg h]

theorem find?_upsert_self (l : List TaskEntry) (e : TaskEntry) :
    (upsertTask l e).find? (fun x => x.span.id == e.span.id) = some e := by
  unfold upsertTask
  split
  · next hany =>
    rw [List.find?_map]
    have hpf : ((fun x : TaskEntry => x.span.id == e.span.id) ∘
        (fun x => if x.span.id == e.span.id then e else x)) =
        (fun x : TaskEntry => x.span.id == e.span.id) := by
      funext x
      simp only [Function.comp_apply]
      by_cases hx : (x.span.id == e.span.id) = true
      · rw [if_pos hx, hx]
        simp
      · rw [if_neg hx]
    rw [hpf]
    obtain ⟨x₀, hx₀, hpx₀⟩ := List.any_eq_true.mp hany
    obtain ⟨y, hy⟩ := Option.isSome_iff_exists.mp
      ((@List.find?_isSome TaskEntry l (fun x => x.span.id == e.span.id)).mpr ⟨x₀, hx₀, hpx₀⟩)
    rw [hy, Option.map_some']
    rw [if_pos (List.find?_some hy)]
  · next hany =>
    rw [List.find?_append]
    have hnone : l.find? (fun x => x.span.id == e.span.id) = none := by
      rw [List.find?_eq_none]
      intro x hx hp
      exact hany (List.any_eq_true.mpr ⟨x, hx, hp⟩)
    rw [hnone, List.find?_cons_of_pos _ (by simp)]
    rfl

theorem find?_upsert_other (l : List TaskEntry) (e : TaskEntry) (id : DispatcherID)
    (h : e.span.id ≠ id) :
    (upsertTask l e).find? (fun x => x.span.id == id) = l.find? (fun x => x.span.id == id) := by
  unfold upsertTask
  split
  · rw [List.find?_map]
    have hpf : ((fun x : TaskEntry => x.span.id == id) ∘
        (fun x => if x.span.id == e.span.id then e else x)) =
        (fun x : TaskEntry => x.span.id == id) := by
      funext x
      simp only [Function.comp_apply]
      by_cases hx : (x.span.id == e.span.id) = true
      · rw [if_pos hx]
        have hxe : x.span.id = e.span.id := by simpa using hx
        rw [hxe]
      · rw [if_neg hx]
    rw [hpf]
    cases hf : l.find? (fun x => x.span.id == id) with
    | none => rfl
    | some y =>
      rw [Option.map_some']
      have hyid : y.span.id = id := by simpa using List.find?_some hf
      have hyne : ¬ (y.span.id == e.span.id) = true := by
        simp only [beq_iff_eq, hyid]
        exact fun hc => h hc.symm
      rw [if_neg hyne]
  · rw [List.find?_append]
    have hc : ¬ (e.span.id == id) = true := by simpa using h
    have h1 : List.find? (fun x => x.span.id == id) [e] = none := by
      rw [List.find?_eq_none]
      intro x hx
      have hxe : x = e := by simpa using hx
      subst hxe
      exact hc
    rw [h1, Option.or_none]

theorem ids_upsert_present (l : List TaskEntry) (e : TaskEntry)
    (h : l.any (fun x => x.span.id == e.span.id) = true) :
    (upsertTask l e).map (fun x => x.span.id) = l.map (fun x => x.span.id) := by
  unfold upsertTask
  rw [if_pos h, List.map_map]
  refine List.map_congr_left (fun x _ => ?_)
  simp only [Function.comp_apply]
  by_cases hx : (x.span.id == e.span.id) = true
  · rw [if_pos hx]
    exact (by simpa using hx : x.span.id = e.span.id).symm
  · rw [if_neg hx]

/-! Index lookup lemmas -/

theorem idxLookup_nil (k : Int) : idxLookup [] k = [] := rfl

theorem idxLookup_none {l : Index} {k : Int}
    (h : l.find? (fun p => p.1 == k) = none) : idxLookup l k = [] := by
  unfold idxLookup
  rw [h]

theorem idxLookup_of_find?_some {l : Index} {k : Int} {p : Int × List DispatcherID}
    (h : l.find? (fun q => q.1 == k) = some p) : idxLookup l k = p.2 := by
  unfold idxLookup
  rw [h]

theorem idxLookup_cons_pos {q : Int × List DispatcherID} {t : Index} {k : Int} (h : q.1 = k) :
    idxLookup (q :: t) k = q.2 := by
  unfold idxLookup
  rw [List.find?_cons_of_pos _ (by simp [h])]

theorem idxLookup_cons_neg {q : Int × List DispatcherID} {t : Index} {k : Int} (h : ¬ q.1 = k) :
    idxLookup (q :: t) k = idxLookup t k := by
  unfold idxLookup
  rw [List.find?_cons_of_neg _ (by simp [h])]

theorem idxLookup_eq_nil_of_not_mem {l : Index} {k : Int} (h : k ∉ l.map Prod.fst) :
    idxLookup l k = [] := by
  refine idxLookup_none ?_
  rw [List.find?_eq_none]
  intro p hp hc
  exact h (List.mem_map.mpr ⟨p, hp, by simpa using hc⟩)

theorem idxLookup_eq_of_mem {l : Index} (hnd : (l.map Prod.fst).Nodup)
    {p : Int × List DispatcherID} (hp : p ∈ l) : idxLookup l p.1 = p.2 := by
  induction l with
  | nil => cases hp
  | cons q t ih =>
    rw [List.map_cons, List.nodup_cons] at hnd
    rcases List.mem_cons.mp hp with rfl | hpt
    · exact idxLookup_cons_pos rfl
    · have hq : ¬ q.1 = p.1 := by
        intro hc
        exact hnd.1 (hc ▸ List.mem_map.mpr ⟨p, hpt, rfl⟩)
      rw [idxLookup_cons_neg hq]
      exact ih hnd.2 hpt

theorem mem_of_mem_idxLookup {l : Index} {k : Int} {id : DispatcherID}
    (h : id ∈ idxLookup l k) : ∃ p ∈ l, p.1 = k ∧ id ∈ p.2 := by
  unfold idxLookup at h
  cases hf : l.find? (fun p => p.1 == k) with
  | none => rw [hf] at h; cases h
  | some p =>
    rw [hf] at h
    exact ⟨p, List.mem_of_find?_eq_some hf, by simpa using List.find?_some hf, h⟩

theorem idxInsert_keys (l : Index) (k : Int) (id : DispatcherID) :
    (idxInsert l k id).map Prod.fst =
      if (l.find? (fun p => p.1 == k)).isSome then l.map Prod.fst
      else l.map Prod.fst ++ [k] := by
  unfold idxInsert
  split
  · next h =>
    rw [List.map_map]
    refine List.map_congr_left (fun p _ => ?_)
    simp only [Function.comp_apply]
    by_cases hp : (p.1 == k) = true
    · rw [if_pos hp]
    · rw [if_neg hp]
  · next _ =>
    simp

theorem idxSet_keys (l : Index) (k : Int) (v : List DispatcherID) :
    (idxSet l k v).map Prod.fst =
      if (l.find? (fun p => p.1 == k)).isSome then l.map Prod.fst
      else l.map Prod.fst ++ [k] := by
  unfold idxSet
  split
  · next h =>
    rw [List.map_map]
    refine List.map_congr_left (fun p _ => ?_)
    simp only [Function.comp_apply]
    by_cases hp : (p.1 == k) = true
    · rw [if_pos hp]
    · rw [if_neg hp]
  · next _ =>
    simp

theorem idxRemove_keys_sublist (l : Index) (k : Int) (id : DispatcherID) :
    ((idxRemove l k id).map Prod.fst).Sublist (l.map Prod.fst) := by
  unfold idxRemove
  have h1 := (List.filter_sublist
    (p := fun p : Int × List DispatcherID => !(p.1 == k && p.2.isEmpty))
    (l.map (fun p => if p.1 == k then (p.1, p.2.filter (fun x => x != id)) else p))).map Prod.fst
  have h3 : (l.map (fun p => if p.1 == k then (p.1, p.2.filter (fun x => x != id)) else p)).map
      Prod.fst = l.map Prod.fst := by
    rw [List.map_map]
    refine List.map_congr_left (fun p _ => ?_)
    simp only [Function.comp_apply]
    by_cases hp : (p.1 == k) = true
    · rw [if_pos hp]
    · rw [if_neg hp]
  rw [h3] at h1
  exact h1

theorem keys_nodup_idxInsert {l : Index} (hnd : (l.map Prod.fst).Nodup) (k : Int)
    (id : DispatcherID) : ((idxInsert l k id).map Prod.fst).Nodup := by
  rw [idxInsert_keys]
  split
  · exact hnd
  · next h =>
    rw [Option.not_isSome_iff_eq_none, List.find?_eq_none] at h
    have hk : k ∉ l.map Prod.fst := by
      intro hc
      obtain ⟨p, hp, hpk⟩ := List.mem_map.mp hc
      exact h p hp (by simp [hpk])
    rw [List.nodup_append]
    exact ⟨hnd, List.nodup_singleton k, fun a ha hb => hk ((by simpa using hb : a = k) ▸ ha)⟩

theorem keys_nodup_idxSet {l : Index} (hnd : (l.map Prod.fst).Nodup) (k : Int)
    (v : List DispatcherID) : ((idxSet l k v).map Prod.fst).Nodup := by
  rw [idxSet_keys]
  split
  · exact hnd
  · next h =>
    rw [Option.not_isSome_iff_eq_none, List.find?_eq_none] at h
    have hk : k ∉ l.map Prod.fst := by
      intro hc
      obtain ⟨p, hp, hpk⟩ := List.mem_map.mp hc
      exact h p hp (by simp [hpk])
    rw [List.nodup_append]
    exact ⟨hnd, List.nodup_singleton k, fun a ha hb => hk ((by simpa using hb : a = k) ▸ ha)⟩

theorem keys_nodup_idxRemove {l : Index} (hnd : (l.map Prod.fst).Nodup) (k : Int)
    (id : DispatcherID) : ((idxRemove l k id).map Prod.fst).Nodup :=
  List.Nodup.sublist (idxRemove_keys_sublist l k id) hnd

theorem idxLookup_idxInsert (l : Index) (k : Int) (id : DispatcherID) (k' : Int) :
    idxLookup (idxInsert l k id) k' =
      if k' = k then
        (if id ∈ idxLookup l k then idxLookup l k else idxLookup l k ++ [id])
      else idxLookup l k' := by
  unfold idxInsert
  split
  · next hpres =>
    have hfm : (l.map (fun p =>
        if p.1 == k then (p.1, if p.2.contains id then p.2 else p.2 ++ [id]) else p)).find?
        (fun p => p.1 == k') = Option.map
          (fun p => if p.1 == k then (p.1, if p.2.contains id then p.2 else p.2 ++ [id]) else p)
          (l.find? (fun p => p.1 == k')) := by
      have hcomp : ((fun p : Int × List DispatcherID => p.1 == k') ∘
          (fun p => if p.1 == k then (p.1, if p.2.contains id then p.2 else p.2 ++ [id]) else p)) =
          (fun p : Int × List DispatcherID => p.1 == k') := by
        funext p
        simp only [Function.comp_apply]
        by_cases hp : (p.1 == k) = true
        · rw [if_pos hp]
        · rw [if_neg hp]
      rw [List.find?_map, hcomp]
    by_cases hk : k' = k
    · subst hk
      obtain ⟨p₀, hp₀⟩ := Option.isSome_iff_exists.mp hpres
      rw [hp₀, Option.map_some'] at hfm
      rw [idxLookup_of_find?_some hfm, if_pos rfl, if_pos (List.find?_some hp₀),
        idxLookup_of_find?_some hp₀]
      by_cases hc : (p₀.2.contains id) = true
      · rw [if_pos hc, if_pos (by simpa using hc)]
      · rw [if_neg hc, if_neg (by simpa using hc)]
    · rw [if_neg hk]
      cases hf : l.find? (fun p => p.1 == k') with
      | none =>
        rw [hf, Option.map_none'] at hfm
        rw [idxLookup_none hfm, idxLookup_none hf]
      | some p₁ =>
        rw [hf, Option.map_some'] at hfm
        have hp₁ : p₁.1 = k' := by simpa using List.find?_some hf
        have hp₁k : ¬ (p₁.1 == k) = true := by
          simp only [beq_iff_eq, hp₁]
          exact fun hc => hk hc
        rw [if_neg hp₁k] at hfm
        rw [idxLookup_of_find?_some hfm, idxLookup_of_find?_some hf]
  · next habs =>
    have hnone : l.find? (fun p => p.1 == k) = none :=
      Option.not_isSome_iff_eq_none.mp habs
    by_cases hk : k' = k
    · subst hk
      have hlk : idxLookup l k' = [] := idxLookup_none hnone
      have happ : (l ++ [(k', [id])]).find? (fun p => p.1 == k') = some (k', [id]) := by
        rw [List.find?_append, hnone, List.find?_cons_of_pos _ (by simp)]
        rfl
      rw [idxLookup_of_find?_some happ, if_pos rfl, hlk]
      rw [if_neg (by simp)]
      rfl
    · have h2 : List.find? (fun p => p.1 == k') [(k, [id])] = none := by
        rw [List.find?_eq_none]
        intro p hp
        have hpk : p = (k, [id]) := by simpa using hp
        subst hpk
        simp only [beq_iff_eq]
        exact fun hc => hk hc.symm
      have happ : (l ++ [(k, [id])]).find? (fun p => p.1 == k') =
          l.find? (fun p => p.1 == k') := by
        rw [List.find?_append, h2, Option.or_none]
      rw [if_neg hk]
      unfold idxLookup
      rw [happ]

theorem idxLookup_idxSet (l : Index) (k : Int) (v : List DispatcherID) (k' : Int) :
    idxLookup (idxSet l k v) k' = if k' = k then v else idxLookup l k' := by
  unfold idxSet
  split
  · next hpres =>
    have hfm : (l.map (fun p => if p.1 == k then (p.1, v) else p)).find?
        (fun p => p.1 == k') = Option.map (fun p => if p.1 == k then (p.1, v) else p)
          (l.find? (fun p => p.1 == k')) := by
      have hcomp : ((fun p : Int × List DispatcherID => p.1 == k') ∘
          (fun p => if p.1 == k then (p.1, v) else p)) =
          (fun p : Int × List DispatcherID => p.1 == k') := by
        funext p
        simp only [Function.comp_apply]
        by_cases hp : (p.1 == k) = true
        · rw [if_pos hp]
        · rw [if_neg hp]
      rw [List.find?_map, hcomp]
    by_cases hk : k' = k
    · subst hk
      obtain ⟨p₀, hp₀⟩ := Option.isSome_iff_exists.mp hpres
      rw [hp₀, Option.map_some'] at hfm
      rw [if_pos (List.find?_some hp₀)] at hfm
      rw [idxLookup_of_find?_some hfm, if_pos rfl]
    · rw [if_neg hk]
      cases hf : l.find? (fun p => p.1 == k') with
      | none =>
        rw [hf, Option.map_none'] at hfm
        rw [idxLookup_none hfm, idxLookup_none hf]
      | some p₁ =>
        rw [hf, Option.map_some'] at hfm
        have hp₁ : p₁.1 = k' := by simpa using List.find?_some hf
        have hp₁k : ¬ (p₁.1 == k) = true := by
          simp only [beq_iff_eq, hp₁]
          exact fun hc => hk hc
        rw [if_neg hp₁k] at hfm
        rw [idxLookup_of_find?_some hfm, idxLookup_of_find?_some hf]
  · next habs =>
    have hnone : l.find? (fun p => p.1 == k) = none :=
      Option.not_isSome_iff_eq_none.mp habs
    by_cases hk : k' = k
    · subst hk
      have happ : (l ++ [(k', v)]).find? (fun p => p.1 == k') = some (k', v) := by
        rw [List.find?_append, hnone, List.find?_cons_of_pos _ (by simp)]
        rfl
      rw [idxLookup_of_find?_some happ, if_pos rfl]
    · have h2 : List.find? (fun p => p.1 == k') [(k, v)] = none := by
        rw [List.find?_eq_none]
        intro p hp
        have hpk : p = (k, v) := by simpa using hp
        subst hpk
        simp only [beq_iff_eq]
        exact fun hc => hk hc.symm
      have happ : (l ++ [(k, v)]).find? (fun p => p.1 == k') =
          l.find? (fun p => p.1 == k') := by
        rw [List.find?_append, h2, Option.or_none]
      rw [if_neg hk]
      unfold idxLookup
      rw [happ]

theorem idxLookup_idxRemove (k : Int) (rid : DispatcherID) :
    ∀ (l : Index), (l.map Prod.fst).Nodup → ∀ (k' : Int),
      idxLookup (idxRemove l k rid) k' =
        if k' = k then (idxLookup l k).filter (fun x => x != rid) else idxLookup l k' := by
  intro l
  induction l with
  | nil =>
    intro _ k'
    show idxLookup [] k' = _
    split <;> rfl
  | cons q t ih =>
    intro hnd k'
    rw [List.map_cons, List.nodup_cons] at hnd
    by_cases hq : (q.1 == k) = true
    · have hqk : q.1 = k := by simpa using hq
      have hknot : k ∉ t.map Prod.fst := hqk ▸ hnd.1
      have htk : idxLookup t k = [] := idxLookup_eq_nil_of_not_mem hknot
      have hqlk : idxLookup (q :: t) k = q.2 := idxLookup_cons_pos hqk
      by_cases hemp : q.2.filter (fun x => x != rid) = []
      · have hrem : idxRemove (q :: t) k rid = idxRemove t k rid := by
          unfold idxRemove
          rw [List.map_cons, if_pos hq, List.filter_cons,
            if_neg (by simp [hqk, List.isEmpty_iff, hemp])]
        rw [hrem, ih hnd.2 k']
        by_cases hk' : k' = k
        · rw [if_pos hk', if_pos hk', htk, List.filter_nil]
          subst hk'
          rw [hqlk, hemp]
        · rw [if_neg hk', if_neg hk', idxLookup_cons_neg (fun hc => hk' (hqk ▸ hc).symm)]
      · have hrem : idxRemove (q :: t) k rid =
            (q.1, q.2.filter (fun x => x != rid)) :: idxRemove t k rid := by
          unfold idxRemove
          rw [List.map_cons, if_pos hq, List.filter_cons,
            if_pos (by simp [hqk, List.isEmpty_iff, hemp])]
        rw [hrem]
        by_cases hk' : k' = k
        · subst hk'
          rw [if_pos rfl, hqlk]
          exact idxLookup_cons_pos hqk
        · rw [if_neg hk', idxLookup_cons_neg (fun hc => hk' (hqk ▸ hc).symm),
            idxLookup_cons_neg (fun hc => hk' (hqk ▸ hc).symm), ih hnd.2 k', if_neg hk']
    · have hqf : (q.1 == k) = false := by simpa using hq
      have hrem : idxRemove (q :: t) k rid = q :: idxRemove t k rid := by
        unfold idxRemove
        rw [List.map_cons, if_neg hq, List.filter_cons, if_pos (by simp [hqf])]
      rw [hrem]
      by_cases hk' : k' = q.1
      · have hk'k : ¬ k' = k := by
          rw [hk']
          intro hc
          exact hq (by simp [hc])
        rw [idxLookup_cons_pos hk'.symm, if_neg hk'k, idxLookup_cons_pos hk'.symm]
      · rw [idxLookup_cons_neg (fun hc => hk' hc.symm), ih hnd.2 k',
          idxLookup_cons_neg (fun hc => hk' hc.symm)]
        by_cases hkk : k' = k
        · rw [if_pos hkk, if_pos hkk, idxLookup_cons_neg (fun hc => hq (by simp [hc]))]
        · rw [if_neg hkk, if_neg hkk]

theorem mem_idxRemove {l : Index} {k : Int} {rid : DispatcherID}
    {p' : Int × List DispatcherID} (h : p' ∈ idxRemove l k rid) :
    ∃ p ∈ l, p'.1 = p.1 ∧
      ((¬ p.1 = k ∧ p'.2 = p.2) ∨
        (p.1 = k ∧ p'.2 = p.2.filter (fun x => x != rid) ∧ p'.2 ≠ [])) := by
  unfold idxRemove at h
  obtain ⟨hmem, hg⟩ := List.mem_filter.mp h
  obtain ⟨p, hp, hfp⟩ := List.mem_map.mp hmem
  by_cases hpk : (p.1 == k) = true
  · rw [if_pos hpk] at hfp
    have hpk' : p.1 = k := by simpa using hpk
    refine ⟨p, hp, ?_, Or.inr ⟨hpk', ?_, ?_⟩⟩
    · rw [← hfp]
    · rw [← hfp]
    · have hp'1 : p'.1 = k := by rw [← hfp]; exact hpk'
      intro hc
      simp [hp'1, hc] at hg
  · rw [if_neg hpk] at hfp
    exact ⟨p, hp, by rw [← hfp], Or.inl ⟨by simpa using hpk, by rw [← hfp]⟩⟩

theorem mem_idxInsert {l : Index} {k : Int} {id : DispatcherID}
    {p' : Int × List DispatcherID} (h : p' ∈ idxInsert l k id) :
    (∃ p ∈ l, p'.1 = p.1 ∧
      (p'.2 = p.2 ∨ (p.1 = k ∧ id ∉ p.2 ∧ p'.2 = p.2 ++ [id]))) ∨ p' = (k, [id]) := by
  unfold idxInsert at h
  split at h
  · obtain ⟨p, hp, hfp⟩ := List.mem_map.mp h
    by_cases hpk : (p.1 == k) = true
    · rw [if_pos hpk] at hfp
      by_cases hc : (p.2.contains id) = true
      · rw [if_pos hc] at hfp
        exact Or.inl ⟨p, hp, by rw [← hfp], Or.inl (by rw [← hfp])⟩
      · rw [if_neg hc] at hfp
        exact Or.inl ⟨p, hp, by rw [← hfp],
          Or.inr ⟨by simpa using hpk, by simpa using hc, by rw [← hfp]⟩⟩
    · rw [if_neg hpk] at hfp
      exact Or.inl ⟨p, hp, by rw [← hfp], Or.inl (by rw [← hfp])⟩
  · rcases List.mem_append.mp h with hl | hr
    · exact Or.inl ⟨p', hl, rfl, Or.inl rfl⟩
    · exact Or.inr (by simpa using hr)

/-! ### Characterizing the database operations -/

theorem getEntry_addAbsentOne (db : ReplicationDB) (s : SpanReplication) (id : DispatcherID) :
    getEntry (addAbsentOne db s) id =
      if id = s.id then some { span := s, state := SpanState.absentS } else getEntry db id := by
  show (upsertTask db.allTasks { span := s, state := SpanState.absentS }).find?
      (fun e => e.span.id == id) = _
  split
  · next heq =>
    subst heq
    exact find?_upsert_self db.allTasks { span := s, state := SpanState.absentS }
  · next hne =>
    exact find?_upsert_other _ _ _ (fun hc => hne hc.symm)

theorem removeSpan_allTasks (db : ReplicationDB) (s : SpanReplication) :
    (removeSpan db s).allTasks = db.allTasks.filter (fun e => e.span.id != s.id) := rfl

theorem removeSpan_schemaTasks (db : ReplicationDB) (s : SpanReplication) :
    (removeSpan db s).schemaTasks = idxRemove db.schemaTasks s.schemaID s.id := rfl

theorem removeSpan_tableTasks (db : ReplicationDB) (s : SpanReplication) :
    (removeSpan db s).tableTasks = idxRemove db.tableTasks s.span.tableID s.id := rfl

theorem WF_removeSpan {db : ReplicationDB} {s : SpanReplication} {st : SpanState}
    (hWF : WF db) (hs : getEntry db s.id = some { span := s, state := st }) :
    WF (removeSpan db s) := by
  obtain ⟨h1, h2, h3, h4, h5, h6⟩ := hWF
  refine ⟨?_, ?_, ?_, ?_, ?_, ?_⟩
  · have hsub : (idsOf (removeSpan db s)).Sublist (idsOf db) := by
      unfold idsOf
      rw [removeSpan_allTasks]
      exact (List.filter_sublist _).map _
    exact List.Nodup.sublist hsub h1
  · exact keys_nodup_idxRemove h2 _ _
  · exact keys_nodup_idxRemove h3 _ _
  · intro e he
    have he' := List.mem_filter.mp he
    have hene : ¬ e.span.id = s.id := by simpa using he'.2
    obtain ⟨hesch, hetab⟩ := h4 e he'.1
    constructor
    · show e.span.id ∈ idxLookup (idxRemove db.schemaTasks s.schemaID s.id) e.span.schemaID
      rw [idxLookup_idxRemove s.schemaID s.id db.schemaTasks h2 e.span.schemaID]
      split
      · next hkk =>
        rw [List.mem_filter]
        exact ⟨hkk ▸ hesch, by simpa using hene⟩
      · exact hesch
    · show e.span.id ∈ idxLookup (idxRemove db.tableTasks s.span.tableID s.id)
          e.span.span.tableID
      rw [idxLookup_idxRemove s.span.tableID s.id db.tableTasks h3 e.span.span.tableID]
      split
      · next hkk =>
        rw [List.mem_filter]
        exact ⟨hkk ▸ hetab, by simpa using hene⟩
      · exact hetab
  · intro p' hp'
    obtain ⟨p, hp, hfst, hcase⟩ := mem_idxRemove hp'
    obtain ⟨hne, hnd, hcomp⟩ := h5 p hp
    rcases hcase with ⟨hpk, hval⟩ | ⟨hpk, hval, hnonempty⟩
    · refine ⟨hval ▸ hne, hval ▸ hnd, ?_⟩
      intro id hid
      rw [hval] at hid
      obtain ⟨e, hemem, heid, hesch⟩ := hcomp id hid
      have heneq : ¬ e.span.id = s.id := by
        intro hc
        have heq := getEntry_unique h1 hs hemem hc
        rw [heq] at hesch
        exact hpk hesch.symm
      exact ⟨e, List.mem_filter.mpr ⟨hemem, by simpa using heneq⟩, heid,
        by rw [hfst]; exact hesch⟩
    · refine ⟨hnonempty, hval ▸ List.Nodup.filter _ hnd, ?_⟩
      intro id hid
      rw [hval, List.mem_filter] at hid
      obtain ⟨hid2, hidne⟩ := hid
      obtain ⟨e, hemem, heid, hesch⟩ := hcomp id hid2
      have heneq : ¬ e.span.id = s.id := by
        rw [heid]
        simpa using hidne
      exact ⟨e, List.mem_filter.mpr ⟨hemem, by simpa using heneq⟩, heid,
        by rw [hfst]; exact hesch⟩
  · intro p' hp'
    obtain ⟨p, hp, hfst, hcase⟩ := mem_idxRemove hp'
    obtain ⟨hne, hnd, hcomp⟩ := h6 p hp
    rcases hcase with ⟨hpk, hval⟩ | ⟨hpk, hval, hnonempty⟩
    · refine ⟨hval ▸ hne, hval ▸ hnd, ?_⟩
      intro id hid
      rw [hval] at hid
      obtain ⟨e, hemem, heid, hetab⟩ := hcomp id hid
      have heneq : ¬ e.span.id = s.id := by
        intro hc
        have heq := getEntry_unique h1 hs hemem hc
        rw [heq] at hetab
        exact hpk hetab.symm
      exact ⟨e, List.mem_filter.mpr ⟨hemem, by simpa using heneq⟩, heid,
        by rw [hfst]; exact hetab⟩
    · refine ⟨hnonempty, hval ▸ List.Nodup.filter _ hnd, ?_⟩
      intro id hid
      rw [hval, List.mem_filter] at hid
      obtain ⟨hid2, hidne⟩ := hid
      obtain ⟨e, hemem, heid, hetab⟩ := hcomp id hid2
      have heneq : ¬ e.span.id = s.id := by
        rw [heid]
        simpa using hidne
      exact ⟨e, List.mem_filter.mpr ⟨hemem, by simpa using heneq⟩, heid,
        by rw [hfst]; exact hetab⟩

theorem WF_addAbsentOne {db : ReplicationDB} {s : SpanReplication}
    (hWF : WF db) (hs : getEntry db s.id = none) : WF (addAbsentOne db s) := by
  obtain ⟨h1, h2, h3, h4, h5, h6⟩ := hWF
  have hnotin : s.id ∉ idsOf db := by
    intro hc
    have h' := (getEntry_isSome_iff db s.id).mpr hc
    rw [hs] at h'
    cases h'
  have hnany : ¬ db.allTasks.any (fun x => x.span.id == s.id) = true := by
    rw [any_id_iff]
    rintro ⟨x, hx, hxid⟩
    exact hnotin (List.mem_map.mpr ⟨x, hx, hxid⟩)
  have hall : (addAbsentOne db s).allTasks =
      db.allTasks ++ [{ span := s, state := SpanState.absentS }] := by
    show upsertTask db.allTasks { span := s, state := SpanState.absentS } = _
    exact upsert_absent hnany
  refine ⟨?_, ?_, ?_, ?_, ?_, ?_⟩
  · have hids : idsOf (addAbsentOne db s) = idsOf db ++ [s.id] := by
      unfold idsOf
      rw [hall, List.map_append]
      rfl
    rw [hids, List.nodup_append]
    exact ⟨h1, List.nodup_singleton _, fun a ha hb => hnotin ((by simpa using hb : a = s.id) ▸ ha)⟩
  · exact keys_nodup_idxInsert h2 _ _
  · exact keys_nodup_idxInsert h3 _ _
  · intro e he
    rw [hall] at he
    rcases List.mem_append.mp he with hold | hnew
    · obtain ⟨hesch, hetab⟩ := h4 e hold
      constructor
      · show e.span.id ∈ idxLookup (idxInsert db.schemaTasks s.schemaID s.id) e.span.schemaID
        rw [idxLookup_idxInsert]
        split
        · next hkk =>
          split
          · exact hkk ▸ hesch
          · exact List.mem_append.mpr (Or.inl (hkk ▸ hesch))
        · exact hesch
      · show e.span.id ∈ idxLookup (idxInsert db.tableTasks s.span.tableID s.id)
          e.span.span.tableID
        rw [idxLookup_idxInsert]
        split
        · next hkk =>
          split
          · exact hkk ▸ hetab
          · exact List.mem_append.mpr (Or.inl (hkk ▸ hetab))
        · exact hetab
    · have hes : e = { span := s, state := SpanState.absentS } := by simpa using hnew
      subst hes
      constructor
      · show s.id ∈ idxLookup (idxInsert db.schemaTasks s.schemaID s.id) s.schemaID
        rw [idxLookup_idxInsert, if_pos rfl]
        split
        · next hin => exact hin
        · exact List.mem_append.mpr (Or.inr (by simp))
      · show s.id ∈ idxLookup (idxInsert db.tableTasks s.span.tableID s.id) s.span.tableID
        rw [idxLookup_idxInsert, if_pos rfl]
        split
        · next hin => exact hin
        · exact List.mem_append.mpr (Or.inr (by simp))
  · intro p' hp'
    rcases mem_idxInsert hp' with ⟨p, hp, hfst, hcase⟩ | hnewp
    · obtain ⟨hne, hnd, hcomp⟩ := h5 p hp
      rcases hcase with hval | ⟨hpk, hidnotin, hval⟩
      · refine ⟨hval ▸ hne, hval ▸ hnd, ?_⟩
        intro id hid
        rw [hval] at hid
        obtain ⟨e, hemem, heid, hesch⟩ := hcomp id hid
        exact ⟨e, by rw [hall]; exact List.mem_append.mpr (Or.inl hemem), heid,
          by rw [hfst]; exact hesch⟩
      · refine ⟨by simp [hval], ?_, ?_⟩
        · rw [hval, List.nodup_append]
          exact ⟨hnd, List.nodup_singleton _,
            fun a ha hb => hidnotin ((by simpa using hb : a = s.id) ▸ ha)⟩
        · intro id hid
          rw [hval] at hid
          rcases List.mem_append.mp hid with hidl | hidr
          · obtain ⟨e, hemem, heid, hesch⟩ := hcomp id hidl
            exact ⟨e, by rw [hall]; exact List.mem_append.mpr (Or.inl hemem), heid,
              by rw [hfst]; exact hesch⟩
          · have hid' : id = s.id := by simpa using hidr
            subst hid'
            refine ⟨{ span := s, state := SpanState.absentS },
              by rw [hall]; exact List.mem_append.mpr (Or.inr (by simp)), rfl, ?_⟩
            show s.schemaID = p'.1
            rw [hfst, hpk]
    · subst hnewp
      refine ⟨by simp, by simp, ?_⟩
      intro id hid
      have hid' : id = s.id := by simpa using hid
      subst hid'
      exact ⟨{ span := s, state := SpanState.absentS },
        by rw [hall]; exact List.mem_append.mpr (Or.inr (by simp)), rfl, rfl⟩
  · intro p' hp'
    rcases mem_idxInsert hp' with ⟨p, hp, hfst, hcase⟩ | hnewp
    · obtain ⟨hne, hnd, hcomp⟩ := h6 p hp
      rcases hcase with hval | ⟨hpk, hidnotin, hval⟩
      · refine ⟨hval ▸ hne, hval ▸ hnd, ?_⟩
        intro id hid
        rw [hval] at hid
        obtain ⟨e, hemem, heid, hetab⟩ := hcomp id hid
        exact ⟨e, by rw [hall]; exact List.mem_append.mpr (Or.inl hemem), heid,
          by rw [hfst]; exact hetab⟩
      · refine ⟨by simp [hval], ?_, ?_⟩
        · rw [hval, List.nodup_append]
          exact ⟨hnd, List.nodup_singleton _,
            fun a ha hb => hidnotin ((by simpa using hb : a = s.id) ▸ ha)⟩
        · intro id hid
          rw [hval] at hid
          rcases List.mem_append.mp hid with hidl | hidr
          · obtain ⟨e, hemem, heid, hetab⟩ := hcomp id hidl
            exact ⟨e, by rw [hall]; exact List.mem_append.mpr (Or.inl hemem), heid,
              by rw [hfst]; exact hetab⟩
          · have hid' : id = s.id := by simpa using hidr
            subst hid'
            refine ⟨{ span := s, state := SpanState.absentS },
              by rw [hall]; exact List.mem_append.mpr (Or.inr (by simp)), rfl, ?_⟩
            show s.span.tableID = p'.1
            rw [hfst, hpk]
    · subst hnewp
      refine ⟨by simp, by simp, ?_⟩
      intro id hid
      have hid' : id = s.id := by simpa using hid
      subst hid'
      exact ⟨{ span := s, state := SpanState.absentS },
        by rw [hall]; exact List.mem_append.mpr (Or.inr (by simp)), rfl, rfl⟩

/-! ### Fold-level lemmas -/

theorem getEntry_addAbsentList_other (spans : List SpanReplication) :
    ∀ (db : ReplicationDB) (id : DispatcherID), (∀ s ∈ spans, s.id ≠ id) →
      getEntry (addAbsentReplicaSetUnLock db spans) id = getEntry db id := by
  induction spans with
  | nil => intro db id _; rfl
  | cons s rest ih =>
    intro db id h
    show getEntry (addAbsentReplicaSetUnLock (addAbsentOne db s) rest) id = _
    rw [ih _ _ (fun x hx => h x (List.mem_cons_of_mem _ hx)), getEntry_addAbsentOne,
      if_neg (fun hc => h s (List.mem_cons_self _ _) hc.symm)]

theorem WF_addAbsentList (spans : List SpanReplication) :
    ∀ (db : ReplicationDB), WF db → (∀ s ∈ spans, getEntry db s.id = none) →
      (spans.map (fun s => s.id)).Nodup →
      WF (addAbsentReplicaSetUnLock db spans) := by
  induction spans with
  | nil => intro db hWF _ _; exact hWF
  | cons s rest ih =>
    intro db hWF hfresh hnd
    rw [List.map_cons, List.nodup_cons] at hnd
    refine ih _ (WF_addAbsentOne hWF (hfresh s (List.mem_cons_self _ _))) ?_ hnd.2
    intro x hx
    rw [getEntry_addAbsentOne,
      if_neg (fun hc => hnd.1 (by rw [← hc]; exact List.mem_map.mpr ⟨x, hx, rfl⟩))]
    exact hfresh x (List.mem_cons_of_mem _ hx)

theorem getEntry_addAbsentList_self (spans : List SpanReplication) :
    ∀ (db : ReplicationDB), (∀ s ∈ spans, getEntry db s.id = none) →
      (spans.map (fun s => s.id)).Nodup →
      ∀ s ∈ spans, getEntry (addAbsentReplicaSetUnLock db spans) s.id =
        some { span := s, state := SpanState.absentS } := by
  induction spans with
  | nil => intro db _ _ s hs; cases hs
  | cons s₀ rest ih =>
    intro db hfresh hnd s hs
    rw [List.map_cons, List.nodup_cons] at hnd
    rcases List.mem_cons.mp hs with rfl | hsr
    · show getEntry (addAbsentReplicaSetUnLock (addAbsentOne db s) rest) s.id = _
      rw [getEntry_addAbsentList_other rest _ _
        (fun x hx hc => hnd.1 (by rw [← hc]; exact List.mem_map.mpr ⟨x, hx, rfl⟩)),
        getEntry_addAbsentOne, if_pos rfl]
    · show getEntry (addAbsentReplicaSetUnLock (addAbsentOne db s₀) rest) s.id = _
      refine ih _ ?_ hnd.2 s hsr
      intro x hx
      rw [getEntry_addAbsentOne,
        if_neg (fun hc => hnd.1 (by rw [← hc]; exact List.mem_map.mpr ⟨x, hx, rfl⟩))]
      exact hfresh x (List.mem_cons_of_mem _ hx)

theorem foldl_replStep_none (l : List SpanReplication) :
    l.foldl replStep none = none := by
  induction l with
  | nil => rfl
  | cons x rest ih =>
    rw [List.foldl_cons]
    exact ih

theorem replStep_some (st : ReplicationDB × Nat) (old : SpanReplication) :
    replStep (some st) old =
      if (getEntry st.1 old.id).isSome then
        some (removeSpan st.1 old, Nat.min st.2 old.checkpointTs)
      else none := rfl

theorem replaceRemoveOlds_cons (db : ReplicationDB) (ts : Nat) (old : SpanReplication)
    (rest : List SpanReplication) :
    replaceRemoveOlds db ts (old :: rest) =
      rest.foldl replStep (replStep (some (db, ts)) old) := by
  show List.foldl replStep (some (db, ts)) (old :: rest) = _
  rw [List.foldl_cons]

theorem replaceRemoveOlds_spec (olds : List SpanReplication) :
    ∀ (db : ReplicationDB) (ts : Nat), WF db →
      (∀ o ∈ olds, ∃ st, getEntry db o.id = some { span := o, state := st }) →
      (olds.map (fun o => o.id)).Nodup →
      ∃ db', replaceRemoveOlds db ts olds =
          some (db', olds.foldl (fun a o => Nat.min a o.checkpointTs) ts) ∧
        WF db' ∧
        (∀ id, getEntry db' id =
          if id ∈ olds.map (fun o => o.id) then none else getEntry db id) := by
  induction olds with
  | nil =>
    intro db ts hWF _ _
    exact ⟨db, rfl, hWF, fun id => by simp⟩
  | cons old rest ih =>
    intro db ts hWF holds hnd
    rw [List.map_cons, List.nodup_cons] at hnd
    obtain ⟨st₀, hst₀⟩ := holds old (List.mem_cons_self _ _)
    have hS : (getEntry db old.id).isSome = true := by rw [hst₀]; rfl
    have hWF1 : WF (removeSpan db old) := WF_removeSpan hWF hst₀
    have holds1 : ∀ o ∈ rest, ∃ st, getEntry (removeSpan db old) o.id =
        some { span := o, state := st } := by
      intro o ho
      obtain ⟨st, hsome⟩ := holds o (List.mem_cons_of_mem _ ho)
      refine ⟨st, ?_⟩
      rw [getEntry_removeSpan,
        if_neg (fun hc => hnd.1 (by rw [← hc]; exact List.mem_map.mpr ⟨o, ho, rfl⟩))]
      exact hsome
    obtain ⟨db', hres, hWF', hchar⟩ := ih (removeSpan db old) (Nat.min ts old.checkpointTs)
      hWF1 holds1 hnd.2
    refine ⟨db', ?_, hWF', ?_⟩
    · rw [replaceRemoveOlds_cons, replStep_some, if_pos hS]
      have hres' : rest.foldl replStep
          (some (removeSpan db old, Nat.min ts old.checkpointTs)) =
          some (db', rest.foldl (fun a o => Nat.min a o.checkpointTs)
            (Nat.min ts old.checkpointTs)) := hres
      rw [hres', List.foldl_cons]
    · intro id
      rw [hchar id, getEntry_removeSpan]
      by_cases hidold : id = old.id
      · by_cases hidr : id ∈ rest.map (fun o => o.id)
        · rw [if_pos hidr, if_pos (by simp [hidr])]
        · rw [if_neg hidr, if_pos hidold, if_pos (by simp [hidold])]
      · by_cases hidr : id ∈ rest.map (fun o => o.id)
        · rw [if_pos hidr, if_pos (by simp [hidr])]
        · rw [if_neg hidr, if_neg hidold, if_neg (by simp [hidold, hidr])]

theorem replaceRemoveOlds_fails (olds : List SpanReplication) :
    ∀ (db : ReplicationDB) (ts : Nat) (o : SpanReplication), o ∈ olds →
      getEntry db o.id = none → replaceRemoveOlds db ts olds = none := by
  induction olds with
  | nil => intro db ts o ho _; cases ho
  | cons x rest ih =>
    intro db ts o ho hnone
    rw [replaceRemoveOlds_cons, replStep_some]
    by_cases hx : (getEntry db x.id).isSome = true
    · rw [if_pos hx]
      have hsteprest : rest.foldl replStep
          (some (removeSpan db x, Nat.min ts x.checkpointTs)) =
          replaceRemoveOlds (removeSpan db x) (Nat.min ts x.checkpointTs) rest := rfl
      rw [hsteprest]
      rcases List.mem_cons.mp ho with rfl | hor
      · rw [hnone] at hx
        cases hx
      · refine ih _ _ o hor ?_
        rw [getEntry_removeSpan]
        split
        · rfl
        · exact hnone
    · rw [if_neg hx]
      exact foldl_replStep_none rest

theorem replicationDB_ext {a b : ReplicationDB} (h1 : a.changefeedID = b.changefeedID)
    (h2 : a.allTasks = b.allTasks) (h3 : a.schemaTasks = b.schemaTasks)
    (h4 : a.tableTasks = b.tableTasks) (h5 : a.ddlSpan = b.ddlSpan) : a = b := by
  cases a
  cases b
  cases h1
  cases h2
  cases h3
  cases h4
  cases h5
  rfl

theorem idxRemove_idxInsert_cancel (l : Index) (k : Int) (id : DispatcherID)
    (hne : ∀ p ∈ l, p.2 ≠ [])
    (hnin : ∀ p ∈ l, id ∉ p.2) :
    idxRemove (idxInsert l k id) k id = l := by
  unfold idxInsert
  split
  · next hpres =>
    unfold idxRemove
    rw [List.map_map]
    have hmapid : (l.map ((fun p : Int × List DispatcherID =>
        if p.1 == k then (p.1, p.2.filter (fun x => x != id)) else p) ∘
        (fun p => if p.1 == k then (p.1, if p.2.contains id then p.2 else p.2 ++ [id])
          else p))) = l := by
      have hstep : ∀ p ∈ l, ((fun p : Int × List DispatcherID =>
          if p.1 == k then (p.1, p.2.filter (fun x => x != id)) else p) ∘
          (fun p => if p.1 == k then (p.1, if p.2.contains id then p.2 else p.2 ++ [id])
            else p)) p = p := by
        intro p hp
        simp only [Function.comp_apply]
        have hfl : p.2.filter (fun x => x != id) = p.2 :=
          List.filter_eq_self.mpr (fun a ha => by
            simp only [bne_iff_ne, ne_eq]
            intro hc
            exact hnin p hp (hc ▸ ha))
        by_cases hpk : (p.1 == k) = true
        · rw [if_pos hpk]
          have hcont : ¬ (p.2.contains id) = true := by
            simpa using hnin p hp
          rw [if_neg hcont, if_pos hpk]
          have : (p.2 ++ [id]).filter (fun x => x != id) = p.2 := by
            rw [List.filter_append, hfl]
            have : [id].filter (fun x => x != id) = [] := by simp
            rw [this, List.append_nil]
          rw [this]
        · rw [if_neg hpk, if_neg hpk]
      calc l.map _ = l.map (fun p => p) := List.map_congr_left (fun p hp => hstep p hp)
        _ = l := by simp
    rw [hmapid]
    exact List.filter_eq_self.mpr (fun p hp => by
      by_cases hpk : (p.1 == k) = true
      · have hpe : ¬ p.2.isEmpty = true := by
          simpa [List.isEmpty_iff] using hne p hp
        simp [hpk, hpe]
      · simp [hpk])
  · next habs =>
    have hnone : l.find? (fun p => p.1 == k) = none :=
      Option.not_isSome_iff_eq_none.mp habs
    have hallne : ∀ p ∈ l, ¬ (p.1 == k) = true := by
      rw [← List.find?_eq_none]
      exact hnone
    unfold idxRemove
    rw [List.map_append]
    have hmapl : l.map (fun p => if p.1 == k then (p.1, p.2.filter (fun x => x != id)) else p)
        = l := by
      calc l.map _ = l.map (fun p => p) :=
        List.map_congr_left (fun p hp => by rw [if_neg (hallne p hp)])
        _ = l := by simp
    have hmaps : ([(k, [id])] : Index).map
        (fun p => if p.1 == k then (p.1, p.2.filter (fun x => x != id)) else p) =
        [(k, ([] : List DispatcherID))] := by
      simp
    rw [hmapl, hmaps, List.filter_append]
    have h1 : l.filter (fun p => !(p.1 == k && p.2.isEmpty)) = l :=
      List.filter_eq_self.mpr (fun p hp => by simp [hallne p hp])
    have h2 : ([(k, ([] : List DispatcherID))] : Index).filter
        (fun p => !(p.1 == k && p.2.isEmpty)) = [] := by
      simp
    rw [h1, h2, List.append_nil]

/-! ### Concrete states used as witnesses -/

def wTableSpanDDL : TableSpan := { tableID := 0, startKey := 0, endKey := 10 }

def wDDL : SpanReplication :=
  { changefeedID := 1, id := 100, tsoClient := 5, schemaID := 1, span := wTableSpanDDL,
    checkpointTs := 10, nodeID := "node1" }

def wDB : ReplicationDB := NewReplicaSetDB 1 wDDL

def wSpan42 : TableSpan := { tableID := 42, startKey := 0, endKey := 10 }

def wSpan42a : TableSpan := { tableID := 42, startKey := 0, endKey := 5 }

def wSpan42b : TableSpan := { tableID := 42, startKey := 5, endKey := 10 }

def wS1 : SpanReplication :=
  { changefeedID := 1, id := 200, tsoClient := 5, schemaID := 7, span := wSpan42,
    checkpointTs := 200, nodeID := "" }

/-- `wDB` after the span for table 42 was added as absent. -/
def wDB2 : ReplicationDB := AddAbsentReplicaSet wDB [wS1]

/-- C8: `ReplaceReplicaSet` is fatal (embedded as `none`) whenever some old
replication's id is not in the database, and an empty `oldReplications` list
is likewise rejected: it never silently proceeds in either case. -/
theorem claim_C8_replace_failure (db : ReplicationDB) (olds : List SpanReplication)
    (newSpans : List TableSpan) (ts : Nat) (newIDs : List DispatcherID) :
    (olds = [] → ReplaceReplicaSet db olds newSpans ts newIDs = none) ∧
    (∀ o ∈ olds, GetTaskByID db o.id = none →
      ReplaceReplicaSet db olds newSpans ts newIDs = none) := by
  constructor
  · rintro rfl
    rfl
  · intro o ho hnone
    have hge : getEntry db o.id = none := by
      unfold GetTaskByID at hnone
      cases hg : getEntry db o.id with
      | none => rfl
      | some e => rw [hg] at hnone; cases hnone
    unfold ReplaceReplicaSet
    rw [replaceRemoveOlds_fails olds db ts o ho hge]

theorem claim_C8_witness :
    ReplaceReplicaSet wDB [] [wSpan42] 5 [300] = none ∧
    ReplaceReplicaSet wDB [wS1] [wSpan42] 5 [300] = none :=
  ⟨(claim_C8_replace_failure wDB [] [wSpan42] 5 [300]).1 rfl,
   (claim_C8_replace_failure wDB [wS1] [wSpan42] 5 [300]).2 wS1 (by decide) (by decide)⟩

/-- C9: on a well-formed database, `AddAbsentReplicaSet` of a fresh span
followed by `ForceRemove` of its id restores the database exactly, and
`ForceRemove` of an id unknown to the database is a warning that changes
nothing. -/
theorem claim_C9_addAbsent_forceRemove_roundtrip (db : ReplicationDB) (s : SpanReplication)
    (hWF : WF db) (hfresh : GetTaskByID db s.id = none) :
    ForceRemove (AddAbsentReplicaSet db [s]) s.id = db ∧
    (∀ id, GetTaskByID db id = none → ForceRemove db id = db) := by
  obtain ⟨h1, h2, h3, h4, h5, h6⟩ := hWF
  have hge : getEntry db s.id = none := by
    unfold GetTaskByID at hfresh
    cases hg : getEntry db s.id with
    | none => rfl
    | some e => rw [hg] at hfresh; cases hfresh
  have hnotin : ∀ e ∈ db.allTasks, e.span.id ≠ s.id := (getEntry_eq_none_iff db s.id).mp hge
  constructor
  · have hone : AddAbsentReplicaSet db [s] = addAbsentOne db s := rfl
    rw [hone]
    have hget : GetTaskByID (addAbsentOne db s) s.id = some s := by
      unfold GetTaskByID
      rw [getEntry_addAbsentOne, if_pos rfl]
      rfl
    have hforce : ForceRemove (addAbsentOne db s) s.id =
        removeSpan (addAbsentOne db s) s := by
      unfold ForceRemove
      rw [hget]
    rw [hforce]
    have hnany : ¬ db.allTasks.any (fun x => x.span.id == s.id) = true := by
      rw [any_id_iff]
      rintro ⟨x, hx, hxid⟩
      exact hnotin x hx hxid
    refine replicationDB_ext rfl ?_ ?_ ?_ rfl
    · show ((upsertTask db.allTasks { span := s, state := SpanState.absentS }).filter
        (fun e => e.span.id != s.id)) = db.allTasks
      rw [upsert_absent hnany, List.filter_append]
      have hl : db.allTasks.filter (fun e => e.span.id != s.id) = db.allTasks :=
        List.filter_eq_self.mpr (fun e he => by simpa using hnotin e he)
      have hr : ([{ span := s, state := SpanState.absentS }] : List TaskEntry).filter
          (fun e => e.span.id != s.id) = [] := by simp
      rw [hl, hr, List.append_nil]
    · show idxRemove (idxInsert db.schemaTasks s.schemaID s.id) s.schemaID s.id =
        db.schemaTasks
      refine idxRemove_idxInsert_cancel _ _ _ (fun p hp => (h5 p hp).1) ?_
      intro p hp hin
      obtain ⟨e, hemem, heid, _⟩ := (h5 p hp).2.2 s.id hin
      exact hnotin e hemem heid
    · show idxRemove (idxInsert db.tableTasks s.span.tableID s.id) s.span.tableID s.id =
        db.tableTasks
      refine idxRemove_idxInsert_cancel _ _ _ (fun p hp => (h6 p hp).1) ?_
      intro p hp hin
      obtain ⟨e, hemem, heid, _⟩ := (h6 p hp).2.2 s.id hin
      exact hnotin e hemem heid
  · intro id hnone
    unfold ForceRemove
    rw [hnone]

theorem claim_C9_witness :
    ForceRemove (AddAbsentReplicaSet wDB [wS1]) wS1.id = wDB ∧ ForceRemove wDB 999 = wDB :=
  ⟨(claim_C9_addAbsent_forceRemove_roundtrip wDB wS1 (by decide) (by decide)).1,
   (claim_C9_addAbsent_forceRemove_roundtrip wDB wS1 (by decide) (by decide)).2 999 (by decide)⟩

theorem foldl_min_spec (olds : List SpanReplication) :
    ∀ (ts : Nat),
    (olds.foldl (fun a o => Nat.min a o.checkpointTs) ts ≤ ts) ∧
    (∀ o ∈ olds, olds.foldl (fun a o => Nat.min a o.checkpointTs) ts ≤ o.checkpointTs) ∧
    (olds.foldl (fun a o => Nat.min a o.checkpointTs) ts = ts ∨
      ∃ o ∈ olds, olds.foldl (fun a o => Nat.min a o.checkpointTs) ts = o.checkpointTs) := by
  induction olds with
  | nil =>
    intro ts
    exact ⟨le_refl ts, fun o ho => absurd ho (List.not_mem_nil o), Or.inl rfl⟩
  | cons x rest ih =>
    intro ts
    rw [List.foldl_cons]
    obtain ⟨hle, hall, hcases⟩ := ih (Nat.min ts x.checkpointTs)
    refine ⟨hle.trans (Nat.min_le_left _ _), ?_, ?_⟩
    · intro o ho
      rcases List.mem_cons.mp ho with rfl | hor
      · exact hle.trans (Nat.min_le_right _ _)
      · exact hall o hor
    · rcases hcases with heq | ⟨o, ho, heq⟩
      · rcases Nat.le_total ts x.checkpointTs with hle' | hle'
        · exact Or.inl (heq.trans (Nat.min_eq_left hle'))
        · exact Or.inr ⟨x, List.mem_cons_self _ _, heq.trans (Nat.min_eq_right hle')⟩
      · exact Or.inr ⟨o, List.mem_cons_of_mem _ ho, heq⟩

/-- C1: a successful `ReplaceReplicaSet(olds, newSpans, ts)` call (every old id
currently stored, fresh dispatcher ids for the new spans) removes every old id
from `allTasks` and from both secondary indices, and stores exactly one new
span per element of `newSpans` in the absent partition, carrying the
changefeed id, TSO client and schema id of `olds[0]` and a checkpoint ts equal
to `min(ts, min over olds of old.checkpointTs)` (the fold below, pinned to be
that minimum by the last conjunct). -/
theorem claim_C1_replaceReplicaSet (db : ReplicationDB) (olds : List SpanReplication)
    (newSpans : List TableSpan) (ts : Nat) (newIDs : List DispatcherID)
    (hWF : WF db)
    (holds : ∀ o ∈ olds, ∃ st, getEntry db o.id = some { span := o, state := st })
    (hnd : (olds.map (fun o => o.id)).Nodup)
    (hne : olds ≠ [])
    (hlen : newIDs.length = newSpans.length)
    (hndids : newIDs.Nodup)
    (hfreshids : ∀ nid ∈ newIDs, getEntry db nid = none) :
    ∃ db', ReplaceReplicaSet db olds newSpans ts newIDs = some db' ∧
      (∀ o ∈ olds,
        getEntry db' o.id = none ∧
        (∀ p ∈ db'.schemaTasks, o.id ∉ p.2) ∧
        (∀ p ∈ db'.tableTasks, o.id ∉ p.2)) ∧
      (∀ sp nid, (sp, nid) ∈ newSpans.zip newIDs →
        getEntry db' nid = some
          { span := NewReplicaSet (olds.head hne).changefeedID nid (olds.head hne).tsoClient
              (olds.head hne).schemaID sp
              (olds.foldl (fun a o => Nat.min a o.checkpointTs) ts),
            state := SpanState.absentS }) ∧
      ((olds.foldl (fun a o => Nat.min a o.checkpointTs) ts ≤ ts) ∧
        (∀ o ∈ olds, olds.foldl (fun a o => Nat.min a o.checkpointTs) ts ≤ o.checkpointTs) ∧
        (olds.foldl (fun a o => Nat.min a o.checkpointTs) ts = ts ∨
          ∃ o ∈ olds, olds.foldl (fun a o => Nat.min a o.checkpointTs) ts = o.checkpointTs)) := by
  cases olds with
  | nil => exact absurd rfl hne
  | cons old0 rest =>
    obtain ⟨db₁, hres, hWF₁, hchar⟩ := replaceRemoveOlds_spec (old0 :: rest) db ts hWF holds hnd
    have hfresh₁ : ∀ s ∈ (newSpans.zip newIDs).map
        (fun p => NewReplicaSet old0.changefeedID p.2 old0.tsoClient old0.schemaID p.1
          ((old0 :: rest).foldl (fun a o => Nat.min a o.checkpointTs) ts)),
        getEntry db₁ s.id = none := by
      intro s hs
      obtain ⟨p, hp, hps⟩ := List.mem_map.mp hs
      have hnid : p.2 ∈ newIDs := (List.mem_zip hp).2
      have hsid : s.id = p.2 := by subst hps; rfl
      rw [hsid, hchar p.2]
      split
      · rfl
      · exact hfreshids p.2 hnid
    have hmapids : ((newSpans.zip newIDs).map
        (fun p => NewReplicaSet old0.changefeedID p.2 old0.tsoClient old0.schemaID p.1
          ((old0 :: rest).foldl (fun a o => Nat.min a o.checkpointTs) ts))).map
        (fun s => s.id) = newIDs := by
      rw [List.map_map]
      have hcomp : ((fun s : SpanReplication => s.id) ∘
          (fun p : TableSpan × DispatcherID =>
            NewReplicaSet old0.changefeedID p.2 old0.tsoClient old0.schemaID p.1
              ((old0 :: rest).foldl (fun a o => Nat.min a o.checkpointTs) ts))) =
          Prod.snd := by
        funext p
        rfl
      rw [hcomp]
      exact List.map_snd_zip newSpans newIDs (le_of_eq hlen)
    have hndnews : (((newSpans.zip newIDs).map
        (fun p => NewReplicaSet old0.changefeedID p.2 old0.tsoClient old0.schemaID p.1
          ((old0 :: rest).foldl (fun a o => Nat.min a o.checkpointTs) ts))).map
        (fun s => s.id)).Nodup := by
      rw [hmapids]
      exact hndids
    have hWF' := WF_addAbsentList _ db₁ hWF₁ hfresh₁ hndnews
    refine ⟨addAbsentReplicaSetUnLock db₁ ((newSpans.zip newIDs).map
      (fun p => NewReplicaSet old0.changefeedID p.2 old0.tsoClient old0.schemaID p.1
        ((old0 :: rest).foldl (fun a o => Nat.min a o.checkpointTs) ts))),
      ?_, ?_, ?_, foldl_min_spec (old0 :: rest) ts⟩
    · unfold ReplaceReplicaSet
      rw [hres]
    · intro o ho
      have hoid : getEntry (addAbsentReplicaSetUnLock db₁ ((newSpans.zip newIDs).map
          (fun p => NewReplicaSet old0.changefeedID p.2 old0.tsoClient old0.schemaID p.1
            ((old0 :: rest).foldl (fun a o => Nat.min a o.checkpointTs) ts)))) o.id = none := by
        rw [getEntry_addAbsentList_other _ db₁ o.id ?_]
        · rw [hchar o.id, if_pos (List.mem_map.mpr ⟨o, ho, rfl⟩)]
        · intro s hs hc
          obtain ⟨p, hp, hps⟩ := List.mem_map.mp hs
          have hnid : p.2 ∈ newIDs := (List.mem_zip hp).2
          have hsid : s.id = p.2 := by subst hps; rfl
          obtain ⟨sto, hsto⟩ := holds o ho
          have hdbnone := hfreshids p.2 hnid
          rw [← hsid, hc] at hdbnone
          rw [hsto] at hdbnone
          cases hdbnone
      refine ⟨hoid, ?_, ?_⟩
      · intro p hp hin
        obtain ⟨e, hemem, heid, _⟩ := (hWF'.2.2.2.2.1 p hp).2.2 o.id hin
        have hmm := (getEntry_isSome_iff _ o.id).mpr (List.mem_map.mpr ⟨e, hemem, heid⟩)
        rw [hoid] at hmm
        cases hmm
      · intro p hp hin
        obtain ⟨e, hemem, heid, _⟩ := (hWF'.2.2.2.2.2 p hp).2.2 o.id hin
        have hmm := (getEntry_isSome_iff _ o.id).mpr (List.mem_map.mpr ⟨e, hemem, heid⟩)
        rw [hoid] at hmm
        cases hmm
    · intro sp nid hmem
      exact getEntry_addAbsentList_self _ db₁ hfresh₁ hndnews
        (NewReplicaSet old0.changefeedID nid old0.tsoClient old0.schemaID sp
          ((old0 :: rest).foldl (fun a o => Nat.min a o.checkpointTs) ts))
        (List.mem_map.mpr ⟨(sp, nid), hmem, rfl⟩)

theorem claim_C1_witness : ∃ db',
    ReplaceReplicaSet wDB2 [wS1] [wSpan42a, wSpan42b] 150 [301, 302] = some db' ∧
    getEntry db' wS1.id = none ∧
    getEntry db' 301 = some
      { span := NewReplicaSet 1 301 5 7 wSpan42a 150, state := SpanState.absentS } ∧
    getEntry db' 302 = some
      { span := NewReplicaSet 1 302 5 7 wSpan42b 150, state := SpanState.absentS } := by
  obtain ⟨db', hsome, hremoved, hnews, hmin⟩ :=
    claim_C1_replaceReplicaSet wDB2 [wS1] [wSpan42a, wSpan42b] 150 [301, 302]
      (by decide)
      (by intro o ho
          have ho' : o = wS1 := by simpa using ho
          subst ho'
          exact ⟨SpanState.absentS, by decide⟩)
      (by decide) (by decide) (by decide) (by decide)
      (by intro nid hnid
          rcases (by simpa using hnid : nid = 301 ∨ nid = 302) with h | h <;>
            (subst h; decide))
  refine ⟨db', hsome, (hremoved wS1 (by decide)).1, ?_, ?_⟩
  · have h1 := hnews wSpan42a 301 (by decide)
    simpa using h1
  · have h2 := hnews wSpan42b 302 (by decide)
    simpa using h2

/-- C10: `TryRemoveAll` leaves the database holding exactly the DDL span,
re-seeded into `allTasks` and into both secondary indices under its sentinel
table id and its schema id, and returns exactly the union of the replicating
and scheduling partitions as they were before the call; absent spans are
dropped silently and the DDL span is never returned. -/
theorem claim_C10_tryRemoveAll (db : ReplicationDB)
    (hWF : WF db)
    (hddl : getEntry db db.ddlSpan.id =
      some { span := db.ddlSpan, state := SpanState.unpart }) :
    (TryRemoveAll db).1.allTasks = [{ span := db.ddlSpan, state := SpanState.unpart }] ∧
    (TryRemoveAll db).1.tableTasks = [(db.ddlSpan.span.tableID, [db.ddlSpan.id])] ∧
    (TryRemoveAll db).1.schemaTasks = [(db.ddlSpan.schemaID, [db.ddlSpan.id])] ∧
    (∀ s, s ∈ (TryRemoveAll db).2 ↔
      ∃ e ∈ db.allTasks, e.span = s ∧
        (e.state = SpanState.replicatingS ∨ e.state = SpanState.schedulingS)) ∧
    (∀ s ∈ (TryRemoveAll db).2, s.id ≠ db.ddlSpan.id) := by
  have hmemiff : ∀ s, s ∈ (TryRemoveAll db).2 ↔
      ∃ e ∈ db.allTasks, e.span = s ∧
        (e.state = SpanState.replicatingS ∨ e.state = SpanState.schedulingS) := by
    intro s
    show s ∈ GetReplicatingWithoutLock db ++ GetSchedulingWithoutLock db ↔ _
    constructor
    · intro hs
      rcases List.mem_append.mp hs with h | h
      · obtain ⟨e, he, hes⟩ := List.mem_map.mp h
        obtain ⟨hemem, hst⟩ := List.mem_filter.mp he
        exact ⟨e, hemem, hes, Or.inl (by simpa using hst)⟩
      · obtain ⟨e, he, hes⟩ := List.mem_map.mp h
        obtain ⟨hemem, hst⟩ := List.mem_filter.mp he
        exact ⟨e, hemem, hes, Or.inr (by simpa using hst)⟩
    · rintro ⟨e, hemem, rfl, hst | hst⟩
      · exact List.mem_append.mpr (Or.inl (List.mem_map.mpr
          ⟨e, List.mem_filter.mpr ⟨hemem, by simp [hst]⟩, rfl⟩))
      · exact List.mem_append.mpr (Or.inr (List.mem_map.mpr
          ⟨e, List.mem_filter.mpr ⟨hemem, by simp [hst]⟩, rfl⟩))
  refine ⟨rfl, rfl, rfl, hmemiff, ?_⟩
  intro s hs hcontra
  obtain ⟨e, hemem, hes, hst⟩ := (hmemiff s).mp hs
  have heq : e = { span := db.ddlSpan, state := SpanState.unpart } :=
    getEntry_unique hWF.1 hddl hemem (by rw [hes, hcontra])
  rw [heq] at hst
  rcases hst with h | h <;> cases h

def wSpan43 : TableSpan := { tableID := 43, startKey := 0, endKey := 10 }

def wS2 : SpanReplication :=
  { changefeedID := 1, id := 210, tsoClient := 5, schemaID := 7, span := wSpan43,
    checkpointTs := 300, nodeID := "nodeB" }

/-- `wDB2` after a replicating span for table 43 was installed. -/
def wDB3 : ReplicationDB := AddReplicatingSpan wDB2 wS2

theorem claim_C10_witness :
    (TryRemoveAll wDB3).1.allTasks = [{ span := wDDL, state := SpanState.unpart }] ∧
    wS2 ∈ (TryRemoveAll wDB3).2 ∧
    wS1 ∉ (TryRemoveAll wDB3).2 := by
  obtain ⟨h1, _, _, hiff, _⟩ := claim_C10_tryRemoveAll wDB3 (by decide) (by decide)
  exact ⟨h1, (hiff wS2).mpr ⟨{ span := wS2, state := SpanState.replicatingS }, by decide, rfl,
    Or.inl rfl⟩, by decide⟩

theorem getEntry_of_mem {db : ReplicationDB} (hnd : (idsOf db).Nodup) {e : TaskEntry}
    (he : e ∈ db.allTasks) (id : DispatcherID) (hid : e.span.id = id) :
    getEntry db id = some e := by
  cases hg : getEntry db id with
  | none =>
    rw [getEntry_eq_none_iff] at hg
    exact absurd hid (hg e he)
  | some e' =>
    exact congrArg some (getEntry_unique hnd hg he hid).symm

theorem mem_schema_lookup_iff {db : ReplicationDB} (hWF : WF db) {e : TaskEntry}
    (he : e ∈ db.allTasks) (k : Int) :
    e.span.id ∈ idxLookup db.schemaTasks k ↔ e.span.schemaID = k := by
  constructor
  · intro hin
    obtain ⟨p, hp, hpk, hidp⟩ := mem_of_mem_idxLookup hin
    obtain ⟨_, _, hcomp⟩ := hWF.2.2.2.2.1 p hp
    obtain ⟨e', he'mem, he'id, he'sch⟩ := hcomp _ hidp
    have he'e : e' = e := List.inj_on_of_nodup_map hWF.1 he'mem he (by rw [he'id])
    rw [← he'e, he'sch, hpk]
  · intro hk
    have hmm := (hWF.2.2.2.1 e he).1
    rw [hk] at hmm
    exact hmm

theorem mem_table_lookup_iff {db : ReplicationDB} (hWF : WF db) {e : TaskEntry}
    (he : e ∈ db.allTasks) (k : Int) :
    e.span.id ∈ idxLookup db.tableTasks k ↔ e.span.span.tableID = k := by
  constructor
  · intro hin
    obtain ⟨p, hp, hpk, hidp⟩ := mem_of_mem_idxLookup hin
    obtain ⟨_, _, hcomp⟩ := hWF.2.2.2.2.2 p hp
    obtain ⟨e', he'mem, he'id, he'tab⟩ := hcomp _ hidp
    have he'e : e' = e := List.inj_on_of_nodup_map hWF.1 he'mem he (by rw [he'id])
    rw [← he'e, he'tab, hpk]
  · intro hk
    have hmm := (hWF.2.2.2.1 e he).2
    rw [hk] at hmm
    exact hmm

theorem idxLookup_schema_props {db : ReplicationDB} (hWF : WF db) (k : Int) :
    (idxLookup db.schemaTasks k).Nodup ∧
      ∀ id ∈ idxLookup db.schemaTasks k, ∃ e ∈ db.allTasks, e.span.id = id := by
  cases hf : db.schemaTasks.find? (fun p => p.1 == k) with
  | none =>
    rw [idxLookup_none hf]
    exact ⟨List.nodup_nil, fun id hid => absurd hid (List.not_mem_nil id)⟩
  | some p =>
    rw [idxLookup_of_find?_some hf]
    have hp := List.mem_of_find?_eq_some hf
    obtain ⟨_, hnd, hcomp⟩ := hWF.2.2.2.2.1 p hp
    exact ⟨hnd, fun id hid => by
      obtain ⟨e, he, h1, _⟩ := hcomp id hid
      exact ⟨e, he, h1⟩⟩

theorem idxLookup_table_props {db : ReplicationDB} (hWF : WF db) (k : Int) :
    (idxLookup db.tableTasks k).Nodup ∧
      ∀ id ∈ idxLookup db.tableTasks k, ∃ e ∈ db.allTasks, e.span.id = id := by
  cases hf : db.tableTasks.find? (fun p => p.1 == k) with
  | none =>
    rw [idxLookup_none hf]
    exact ⟨List.nodup_nil, fun id hid => absurd hid (List.not_mem_nil id)⟩
  | some p =>
    rw [idxLookup_of_find?_some hf]
    have hp := List.mem_of_find?_eq_some hf
    obtain ⟨_, hnd, hcomp⟩ := hWF.2.2.2.2.2 p hp
    exact ⟨hnd, fun id hid => by
      obtain ⟨e, he, h1, _⟩ := hcomp id hid
      exact ⟨e, he, h1⟩⟩

theorem tryRemoveIDs_spec (ids : List DispatcherID) :
    ∀ (db : ReplicationDB) (acc : List SpanReplication), WF db → ids.Nodup →
      (∀ id ∈ ids, ∃ e ∈ db.allTasks, e.span.id = id) →
      WF (tryRemoveIDs db acc ids).1 ∧
      (∀ e, e ∈ (tryRemoveIDs db acc ids).1.allTasks ↔
        e ∈ db.allTasks ∧ e.span.id ∉ ids) ∧
      (∀ s, s ∈ (tryRemoveIDs db acc ids).2 ↔
        s ∈ acc ∨ ∃ e ∈ db.allTasks, e.span = s ∧ e.span.id ∈ ids ∧ s.nodeID ≠ "") := by
  induction ids with
  | nil =>
    intro db acc hWF _ _
    exact ⟨hWF, fun e => by simp [tryRemoveIDs], fun s => by simp [tryRemoveIDs]⟩
  | cons id₀ rest ih =>
    intro db acc hWF hnd hex
    rw [List.nodup_cons] at hnd
    obtain ⟨e₀, he₀mem, he₀id⟩ := hex id₀ (List.mem_cons_self _ _)
    have hget : getEntry db id₀ = some e₀ := getEntry_of_mem hWF.1 he₀mem id₀ he₀id
    have hgettask : GetTaskByID db id₀ = some e₀.span := by
      unfold GetTaskByID
      rw [hget]
      rfl
    have hstep : tryRemoveIDs db acc (id₀ :: rest) =
        tryRemoveIDs (removeSpan db e₀.span)
          (if e₀.span.nodeID != "" then acc ++ [e₀.span] else acc) rest := by
      show (match GetTaskByID db id₀ with
        | some task => tryRemoveIDs (removeSpan db task)
            (if task.nodeID != "" then acc ++ [task] else acc) rest
        | none => tryRemoveIDs db acc rest) = _
      rw [hgettask]
    have hWF₁ : WF (removeSpan db e₀.span) :=
      @WF_removeSpan db e₀.span e₀.state hWF (by rw [he₀id]; exact hget)
    have hex₁ : ∀ id ∈ rest, ∃ e ∈ (removeSpan db e₀.span).allTasks, e.span.id = id := by
      intro id hid
      obtain ⟨e, hemem, heid⟩ := hex id (List.mem_cons_of_mem _ hid)
      refine ⟨e, ?_, heid⟩
      rw [removeSpan_allTasks, List.mem_filter]
      refine ⟨hemem, ?_⟩
      have hne' : id ≠ id₀ := fun hc => hnd.1 (by rw [← hc]; exact hid)
      simp [he₀id, heid, hne']
    obtain ⟨ihWF, ihall, ihret⟩ := ih (removeSpan db e₀.span)
      (if e₀.span.nodeID != "" then acc ++ [e₀.span] else acc) hWF₁ hnd.2 hex₁
    rw [hstep]
    refine ⟨ihWF, ?_, ?_⟩
    · intro e
      rw [ihall e]
      constructor
      · rintro ⟨hmem₁, hnotin⟩
        rw [removeSpan_allTasks, List.mem_filter] at hmem₁
        refine ⟨hmem₁.1, ?_⟩
        intro hc
        rcases List.mem_cons.mp hc with h | h
        · have hne' : ¬ e.span.id = e₀.span.id := by simpa using hmem₁.2
          exact hne' (h.trans he₀id.symm)
        · exact hnotin h
      · rintro ⟨hmem, hnotin⟩
        refine ⟨?_, fun hc => hnotin (List.mem_cons_of_mem _ hc)⟩
        rw [removeSpan_allTasks, List.mem_filter]
        refine ⟨hmem, ?_⟩
        have hne' : e.span.id ≠ id₀ := fun hc =>
          hnotin (by rw [hc]; exact List.mem_cons_self _ _)
        simp [he₀id, hne']
    · intro s
      rw [ihret s]
      constructor
      · rintro (hacc₁ | ⟨e, hemem, hes, hid, hnode⟩)
        · by_cases hn : (e₀.span.nodeID != "") = true
          · rw [if_pos hn] at hacc₁
            rcases List.mem_append.mp hacc₁ with h | h
            · exact Or.inl h
            · have hse : s = e₀.span := by simpa using h
              subst hse
              exact Or.inr ⟨e₀, he₀mem, rfl,
                by rw [he₀id]; exact List.mem_cons_self _ _, by simpa using hn⟩
          · rw [if_neg hn] at hacc₁
            exact Or.inl hacc₁
        · rw [removeSpan_allTasks, List.mem_filter] at hemem
          exact Or.inr ⟨e, hemem.1, hes, List.mem_cons_of_mem _ hid, hnode⟩
      · rintro (hacc | ⟨e, hemem, hes, hid, hnode⟩)
        · refine Or.inl ?_
          by_cases hn : (e₀.span.nodeID != "") = true
          · rw [if_pos hn]
            exact List.mem_append.mpr (Or.inl hacc)
          · rw [if_neg hn]
            exact hacc
        · rcases List.mem_cons.mp hid with h | h
          · have he : e = e₀ := getEntry_unique hWF.1 hget hemem h
            refine Or.inl ?_
            have hs₀ : s = e₀.span := by rw [← hes, he]
            have hn : (e₀.span.nodeID != "") = true := by
              rw [← hs₀]
              simpa using hnode
            rw [if_pos hn]
            exact List.mem_append.mpr (Or.inr (by rw [hs₀]; exact List.mem_singleton.mpr rfl))
          · refine Or.inr ⟨e, ?_, hes, h, hnode⟩
            rw [removeSpan_allTasks, List.mem_filter]
            refine ⟨hemem, ?_⟩
            have hne' : e.span.id ≠ id₀ := fun hc => hnd.1 (by rw [← hc]; exact h)
            simp [he₀id, hne']

theorem tryRemoveTables_fold_spec (tids : List TableID) :
    ∀ (db : ReplicationDB) (acc : List SpanReplication), WF db →
      WF ((tids.foldl (fun st tid => tryRemoveIDs st.1 st.2 (idxLookup st.1.tableTasks tid))
        (db, acc)).1) ∧
      (∀ e, e ∈ (tids.foldl (fun st tid => tryRemoveIDs st.1 st.2
          (idxLookup st.1.tableTasks tid)) (db, acc)).1.allTasks ↔
        e ∈ db.allTasks ∧ e.span.span.tableID ∉ tids) ∧
      (∀ s, s ∈ (tids.foldl (fun st tid => tryRemoveIDs st.1 st.2
          (idxLookup st.1.tableTasks tid)) (db, acc)).2 ↔
        s ∈ acc ∨ ∃ e ∈ db.allTasks, e.span = s ∧ e.span.span.tableID ∈ tids ∧
          s.nodeID ≠ "") := by
  induction tids with
  | nil =>
    intro db acc hWF
    exact ⟨hWF, fun e => by simp, fun s => by simp⟩
  | cons tid₀ rest ih =>
    intro db acc hWF
    obtain ⟨hndl, hexl⟩ := idxLookup_table_props hWF tid₀
    obtain ⟨hWF₁, hall₁, hret₁⟩ :=
      tryRemoveIDs_spec (idxLookup db.tableTasks tid₀) db acc hWF hndl hexl
    obtain ⟨hWF₂, hall₂, hret₂⟩ := ih (tryRemoveIDs db acc (idxLookup db.tableTasks tid₀)).1
      (tryRemoveIDs db acc (idxLookup db.tableTasks tid₀)).2 hWF₁
    have hfold : (tid₀ :: rest).foldl
        (fun st tid => tryRemoveIDs st.1 st.2 (idxLookup st.1.tableTasks tid)) (db, acc) =
        rest.foldl (fun st tid => tryRemoveIDs st.1 st.2 (idxLookup st.1.tableTasks tid))
          ((tryRemoveIDs db acc (idxLookup db.tableTasks tid₀)).1,
           (tryRemoveIDs db acc (idxLookup db.tableTasks tid₀)).2) := by
      rw [List.foldl_cons]
    rw [hfold]
    refine ⟨hWF₂, ?_, ?_⟩
    · intro e
      rw [hall₂ e]
      constructor
      · rintro ⟨hx, hnr⟩
        obtain ⟨hdb, hnl⟩ := (hall₁ e).mp hx
        refine ⟨hdb, ?_⟩
        intro hc
        rcases List.mem_cons.mp hc with h | h
        · exact hnl ((mem_table_lookup_iff hWF hdb tid₀).mpr h)
        · exact hnr h
      · rintro ⟨hdb, hnc⟩
        refine ⟨(hall₁ e).mpr ⟨hdb, ?_⟩, fun hc => hnc (List.mem_cons_of_mem _ hc)⟩
        intro hin
        exact hnc (by
          rw [(mem_table_lookup_iff hWF hdb tid₀).mp hin]
          exact List.mem_cons_self _ _)
    · intro s
      rw [hret₂ s]
      constructor
      · rintro (hin₁ | ⟨e, hemem, hes, hid, hnode⟩)
        · rcases (hret₁ s).mp hin₁ with hacc | ⟨e, hemem, hes, hidl, hnode⟩
          · exact Or.inl hacc
          · exact Or.inr ⟨e, hemem, hes, List.mem_cons.mpr
              (Or.inl ((mem_table_lookup_iff hWF hemem tid₀).mp hidl)), hnode⟩
        · obtain ⟨hdb, _⟩ := (hall₁ e).mp hemem
          exact Or.inr ⟨e, hdb, hes, List.mem_cons_of_mem _ hid, hnode⟩
      · rintro (hacc | ⟨e, hemem, hes, hid, hnode⟩)
        · exact Or.inl ((hret₁ s).mpr (Or.inl hacc))
        · rcases List.mem_cons.mp hid with h | h
          · exact Or.inl ((hret₁ s).mpr (Or.inr ⟨e, hemem, hes,
              (mem_table_lookup_iff hWF hemem tid₀).mpr h, hnode⟩))
          · by_cases htid : e.span.span.tableID = tid₀
            · exact Or.inl ((hret₁ s).mpr (Or.inr ⟨e, hemem, hes,
                (mem_table_lookup_iff hWF hemem tid₀).mpr htid, hnode⟩))
            · refine Or.inr ⟨e, ?_, hes, h, hnode⟩
              exact (hall₁ e).mpr ⟨hemem,
                fun hin => htid ((mem_table_lookup_iff hWF hemem tid₀).mp hin)⟩

/-- C4: `TryRemoveBySchemaID` removes every span of the schema and returns
exactly the removed spans that were scheduled (non-empty node id);
`TryRemoveByTableIDs` does the same per listed table id; and a call with no
table ids returns an empty list and leaves the database unchanged. -/
theorem claim_C4_tryRemove (db : ReplicationDB) (tids : List TableID) (sid : SchemaID)
    (hWF : WF db) :
    ((∀ e ∈ (TryRemoveBySchemaID db sid).1.allTasks, e.span.schemaID ≠ sid) ∧
      (∀ s, s ∈ (TryRemoveBySchemaID db sid).2 ↔
        ∃ e ∈ db.allTasks, e.span = s ∧ e.span.schemaID = sid ∧ s.nodeID ≠ "")) ∧
    ((∀ e ∈ (TryRemoveByTableIDs db tids).1.allTasks, e.span.span.tableID ∉ tids) ∧
      (∀ s, s ∈ (TryRemoveByTableIDs db tids).2 ↔
        ∃ e ∈ db.allTasks, e.span = s ∧ e.span.span.tableID ∈ tids ∧ s.nodeID ≠ "")) ∧
    TryRemoveByTableIDs db [] = (db, []) := by
  obtain ⟨hndl, hexl⟩ := idxLookup_schema_props hWF sid
  obtain ⟨hWFs, halls, hrets⟩ :=
    tryRemoveIDs_spec (idxLookup db.schemaTasks sid) db [] hWF hndl hexl
  obtain ⟨hWFt, hallt, hrett⟩ := tryRemoveTables_fold_spec tids db [] hWF
  refine ⟨⟨?_, ?_⟩, ⟨?_, ?_⟩, rfl⟩
  · intro e he hc
    obtain ⟨hdb, hnl⟩ := (halls e).mp he
    exact hnl ((mem_schema_lookup_iff hWF hdb sid).mpr hc)
  · intro s
    show s ∈ (tryRemoveIDs db [] (idxLookup db.schemaTasks sid)).2 ↔ _
    rw [hrets s]
    constructor
    · rintro (hacc | ⟨e, hemem, hes, hidl, hnode⟩)
      · cases hacc
      · exact ⟨e, hemem, hes, (mem_schema_lookup_iff hWF hemem sid).mp hidl, hnode⟩
    · rintro ⟨e, hemem, hes, hsch, hnode⟩
      exact Or.inr ⟨e, hemem, hes, (mem_schema_lookup_iff hWF hemem sid).mpr hsch, hnode⟩
  · intro e he hc
    exact ((hallt e).mp he).2 hc
  · intro s
    show s ∈ (tids.foldl (fun st tid => tryRemoveIDs st.1 st.2
      (idxLookup st.1.tableTasks tid)) (db, [])).2 ↔ _
    rw [hrett s]
    constructor
    · rintro (hacc | h)
      · cases hacc
      · exact h
    · intro h
      exact Or.inr h

theorem claim_C4_witness :
    wS2 ∈ (TryRemoveBySchemaID wDB3 7).2 ∧
    wS1 ∉ (TryRemoveBySchemaID wDB3 7).2 ∧
    TryRemoveByTableIDs wDB3 [] = (wDB3, []) := by
  obtain ⟨⟨_, hiff⟩, _, hempty⟩ := claim_C4_tryRemove wDB3 [] 7 (by decide)
  refine ⟨?_, ?_, hempty⟩
  · exact (hiff wS2).mpr ⟨{ span := wS2, state := SpanState.replicatingS }, by decide, rfl,
      rfl, by decide⟩
  · intro hc
    obtain ⟨_, _, _, _, hnode⟩ := (hiff wS1).mp hc
    exact hnode (by decide)

/-! ### UpdateSchemaID machinery -/

theorem self_mem_upsert (l : List TaskEntry) (e : TaskEntry) : e ∈ upsertTask l e := by
  unfold upsertTask
  split
  · next hany =>
    obtain ⟨x₀, hx₀, hpx₀⟩ := List.any_eq_true.mp hany
    refine List.mem_map.mpr ⟨x₀, hx₀, ?_⟩
    rw [if_pos hpx₀]
  · exact List.mem_append.mpr (Or.inr (by simp))

theorem mem_upsert_of_ne {l : List TaskEntry} {e : TaskEntry} {x : TaskEntry}
    (hx : x ∈ l) (hne : ¬ x.span.id = e.span.id) : x ∈ upsertTask l e := by
  unfold upsertTask
  split
  · refine List.mem_map.mpr ⟨x, hx, ?_⟩
    rw [if_neg (by simpa using hne)]
  · exact List.mem_append.mpr (Or.inl hx)

theorem mem_upsert_present {l : List TaskEntry} {e : TaskEntry}
    (hany : l.any (fun x => x.span.id == e.span.id) = true) {x' : TaskEntry}
    (h : x' ∈ upsertTask l e) :
    x' = e ∨ (x' ∈ l ∧ ¬ x'.span.id = e.span.id) := by
  unfold upsertTask at h
  rw [if_pos hany] at h
  obtain ⟨x, hx, hfx⟩ := List.mem_map.mp h
  by_cases hxe : (x.span.id == e.span.id) = true
  · rw [if_pos hxe] at hfx
    exact Or.inl hfx.symm
  · rw [if_neg hxe] at hfx
    exact Or.inr ⟨hfx ▸ hx, hfx ▸ (by simpa using hxe)⟩

theorem mem_idxLookup_idxInsert_self (l : Index) (k : Int) (id : DispatcherID) :
    id ∈ idxLookup (idxInsert l k id) k := by
  rw [idxLookup_idxInsert, if_pos rfl]
  split
  · next h => exact h
  · exact List.mem_append.mpr (Or.inr (by simp))

theorem updateSchemaOne_def {db : ReplicationDB} {id : DispatcherID} {e : TaskEntry}
    (hget : getEntry db id = some e) (newSid : SchemaID) :
    updateSchemaOne newSid db id =
      { db with
        allTasks := upsertTask db.allTasks
          { span := { e.span with schemaID := newSid }, state := e.state },
        schemaTasks := idxInsert (idxRemove db.schemaTasks e.span.schemaID id) newSid id } := by
  unfold updateSchemaOne
  rw [hget]

theorem updateSchemaOne_tableTasks (newSid : SchemaID) (db : ReplicationDB)
    (id : DispatcherID) : (updateSchemaOne newSid db id).tableTasks = db.tableTasks := by
  unfold updateSchemaOne
  cases getEntry db id <;> rfl

theorem getEntry_updateSchemaOne {db : ReplicationDB} (hnd : (idsOf db).Nodup)
    {id : DispatcherID} {e : TaskEntry} (hget : getEntry db id = some e) (newSid : SchemaID)
    (id' : DispatcherID) :
    getEntry (updateSchemaOne newSid db id) id' =
      if id' = id then some { span := { e.span with schemaID := newSid }, state := e.state }
      else getEntry db id' := by
  obtain ⟨hemem, heid⟩ := getEntry_some_mem hget
  have hall : (updateSchemaOne newSid db id).allTasks = upsertTask db.allTasks
      { span := { e.span with schemaID := newSid }, state := e.state } := by
    rw [updateSchemaOne_def hget]
  show (updateSchemaOne newSid db id).allTasks.find? (fun x => x.span.id == id') = _
  rw [hall]
  split
  · next heq =>
    subst heq
    have hgoal := find?_upsert_self db.allTasks
      { span := { e.span with schemaID := newSid }, state := e.state }
    have hpred : (fun x : TaskEntry => x.span.id ==
        ({ span := { e.span with schemaID := newSid }, state := e.state } : TaskEntry).span.id) =
        (fun x : TaskEntry => x.span.id == id') := by
      funext x
      show (x.span.id == e.span.id) = (x.span.id == id')
      rw [heid]
    rw [hpred] at hgoal
    exact hgoal
  · next hne =>
    refine find?_upsert_other _ _ _ ?_
    show ¬ e.span.id = id'
    rw [heid]
    exact fun hc => hne hc.symm

theorem WF_updateSchemaOne {db : ReplicationDB} (hWF : WF db) (newSid : SchemaID)
    (id : DispatcherID) : WF (updateSchemaOne newSid db id) := by
  cases hget : getEntry db id with
  | none =>
    have hsame : updateSchemaOne newSid db id = db := by
      unfold updateSchemaOne
      rw [hget]
    rw [hsame]
    exact hWF
  | some e =>
    obtain ⟨h1, h2, h3, h4, h5, h6⟩ := hWF
    obtain ⟨hemem, heid⟩ := getEntry_some_mem hget
    have hany : db.allTasks.any (fun x => x.span.id ==
        ({ span := { e.span with schemaID := newSid }, state := e.state } : TaskEntry).span.id) =
        true := by
      refine List.any_eq_true.mpr ⟨e, hemem, ?_⟩
      show (e.span.id == e.span.id) = true
      simp
    have hall : (updateSchemaOne newSid db id).allTasks = upsertTask db.allTasks
        { span := { e.span with schemaID := newSid }, state := e.state } := by
      rw [updateSchemaOne_def hget]
    have hsch : (updateSchemaOne newSid db id).schemaTasks =
        idxInsert (idxRemove db.schemaTasks e.span.schemaID id) newSid id := by
      rw [updateSchemaOne_def hget]
    have htab : (updateSchemaOne newSid db id).tableTasks = db.tableTasks :=
      updateSchemaOne_tableTasks newSid db id
    have hrndk : ((idxRemove db.schemaTasks e.span.schemaID id).map Prod.fst).Nodup :=
      keys_nodup_idxRemove h2 _ _
    have huniq : ∀ x ∈ db.allTasks, x.span.id = id → x = e := by
      intro x hx hxid
      exact getEntry_unique h1 hget hx hxid
    refine ⟨?_, ?_, ?_, ?_, ?_, ?_⟩
    · show ((updateSchemaOne newSid db id).allTasks.map (fun x => x.span.id)).Nodup
      rw [hall, ids_upsert_present _ _ hany]
      exact h1
    · rw [hsch]
      exact keys_nodup_idxInsert hrndk _ _
    · rw [htab]
      exact h3
    · intro x' hx'
      rw [hall] at hx'
      rcases mem_upsert_present hany hx' with rfl | ⟨hx, hxne⟩
      · constructor
        · show e.span.id ∈ idxLookup (updateSchemaOne newSid db id).schemaTasks newSid
          rw [heid, hsch]
          exact mem_idxLookup_idxInsert_self _ _ _
        · show e.span.id ∈ idxLookup (updateSchemaOne newSid db id).tableTasks
            e.span.span.tableID
          rw [htab]
          exact (h4 e hemem).2
      · obtain ⟨hxs, hxt⟩ := h4 x' hx
        have hxid : ¬ x'.span.id = id := by
          intro hc
          exact hxne (by rw [hc, ← heid])
        constructor
        · rw [hsch, idxLookup_idxInsert]
          have hrem : x'.span.id ∈ idxLookup (idxRemove db.schemaTasks e.span.schemaID id)
              x'.span.schemaID := by
            rw [idxLookup_idxRemove _ _ _ h2]
            split
            · next hkk =>
              rw [List.mem_filter]
              exact ⟨hkk ▸ hxs, by simpa using hxid⟩
            · exact hxs
          split
          · next hkk =>
            split
            · next hin => exact hkk ▸ hrem
            · exact List.mem_append.mpr (Or.inl (hkk ▸ hrem))
          · exact hrem
        · rw [htab]
          exact hxt
    · intro p' hp'
      rw [hsch] at hp'
      have hinherited : ∀ (q : Int × List DispatcherID), q ∈ idxRemove db.schemaTasks
          e.span.schemaID id → ∀ id'' ∈ q.2,
          ∃ x' ∈ (updateSchemaOne newSid db id).allTasks, x'.span.id = id'' ∧
            x'.span.schemaID = q.1 := by
        intro q hq id'' hid''
        obtain ⟨p, hp, hfst, hcase⟩ := mem_idxRemove hq
        obtain ⟨_, _, hcomp⟩ := h5 p hp
        have hid''ne : ¬ id'' = id := by
          rcases hcase with ⟨hpk, hval⟩ | ⟨hpk, hval, _⟩
          · intro hc
            rw [hval] at hid''
            obtain ⟨x, hxmem, hxid, hxsch⟩ := hcomp id'' hid''
            have hxe : x = e := huniq x hxmem (hxid.trans hc)
            rw [hxe] at hxsch
            exact hpk hxsch.symm
          · intro hc
            rw [hval, List.mem_filter] at hid''
            have := hid''.2
            simp [hc] at this
        have hid''mem : id'' ∈ p.2 := by
          rcases hcase with ⟨_, hval⟩ | ⟨_, hval, _⟩
          · rw [hval] at hid''
            exact hid''
          · rw [hval, List.mem_filter] at hid''
            exact hid''.1
        obtain ⟨x, hxmem, hxid, hxsch⟩ := hcomp id'' hid''mem
        have hxne : ¬ x.span.id =
            ({ span := { e.span with schemaID := newSid }, state := e.state } :
              TaskEntry).span.id := by
          show ¬ x.span.id = e.span.id
          rw [heid, hxid]
          exact hid''ne
        refine ⟨x, ?_, hxid, by rw [hfst]; exact hxsch⟩
        rw [hall]
        exact mem_upsert_of_ne hxmem hxne
      have hnewmem : ∃ x' ∈ (updateSchemaOne newSid db id).allTasks, x'.span.id = id ∧
          x'.span.schemaID = newSid := by
        refine ⟨{ span := { e.span with schemaID := newSid }, state := e.state }, ?_, ?_, rfl⟩
        · rw [hall]
          exact self_mem_upsert _ _
        · exact heid
      rcases mem_idxInsert hp' with ⟨q, hq, hfst, hcase⟩ | hnewp
      · obtain ⟨p, hp, hfstq, hcaseq⟩ := mem_idxRemove hq
        have hqne : q.2 ≠ [] := by
          rcases hcaseq with ⟨_, hval⟩ | ⟨_, _, hval⟩
          · rw [hval]
            exact (h5 p hp).1
          · exact hval
        have hqnd : q.2.Nodup := by
          rcases hcaseq with ⟨_, hval⟩ | ⟨_, hval, _⟩
          · rw [hval]
            exact (h5 p hp).2.1
          · rw [hval]
            exact List.Nodup.filter _ (h5 p hp).2.1
        rcases hcase with hval | ⟨hqk, hidnotin, hval⟩
        · refine ⟨hval ▸ hqne, hval ▸ hqnd, ?_⟩
          intro id'' hid''
          rw [hval] at hid''
          obtain ⟨x', hx'mem, hx'id, hx'sch⟩ := hinherited q hq id'' hid''
          exact ⟨x', hx'mem, hx'id, by rw [hfst]; exact hx'sch⟩
        · refine ⟨by simp [hval], ?_, ?_⟩
          · rw [hval, List.nodup_append]
            exact ⟨hqnd, List.nodup_singleton _,
              fun a ha hb => hidnotin ((by simpa using hb : a = id) ▸ ha)⟩
          · intro id'' hid''
            rw [hval] at hid''
            rcases List.mem_append.mp hid'' with hidl | hidr
            · obtain ⟨x', hx'mem, hx'id, hx'sch⟩ := hinherited q hq id'' hidl
              exact ⟨x', hx'mem, hx'id, by rw [hfst]; exact hx'sch⟩
            · have hid'' : id'' = id := by simpa using hidr
              subst hid''
              obtain ⟨x', hx'mem, hx'id, hx'sch⟩ := hnewmem
              exact ⟨x', hx'mem, hx'id, by rw [hfst, hqk]; exact hx'sch⟩
      · subst hnewp
        refine ⟨by simp, by simp, ?_⟩
        intro id'' hid''
        have hid''eq : id'' = id := by simpa using hid''
        subst hid''eq
        exact hnewmem
    · intro p hp
      rw [htab] at hp
      obtain ⟨hne, hnd, hcomp⟩ := h6 p hp
      refine ⟨hne, hnd, ?_⟩
      intro id'' hid''
      obtain ⟨x, hxmem, hxid, hxtab⟩ := hcomp id'' hid''
      by_cases hxide : x.span.id = id
      · have hxe : x = e := huniq x hxmem hxide
        refine ⟨{ span := { e.span with schemaID := newSid }, state := e.state }, ?_, ?_, ?_⟩
        · rw [hall]
          exact self_mem_upsert _ _
        · show e.span.id = id''
          rw [← hxe, hxid]
        · show e.span.span.tableID = p.1
          rw [← hxe]
          exact hxtab
      · refine ⟨x, ?_, hxid, hxtab⟩
        rw [hall]
        refine mem_upsert_of_ne hxmem ?_
        show ¬ x.span.id = e.span.id
        rw [heid]
        exact hxide

theorem updateSchemaID_fold_spec (ids : List DispatcherID) :
    ∀ (db : ReplicationDB) (newSid : SchemaID), WF db → ids.Nodup →
      (∀ id ∈ ids, (getEntry db id).isSome) →
      WF (ids.foldl (updateSchemaOne newSid) db) ∧
      (ids.foldl (updateSchemaOne newSid) db).tableTasks = db.tableTasks ∧
      (∀ id', getEntry (ids.foldl (updateSchemaOne newSid) db) id' =
        if id' ∈ ids then
          (getEntry db id').map
            (fun e => { span := { e.span with schemaID := newSid }, state := e.state })
        else getEntry db id') := by
  induction ids with
  | nil =>
    intro db newSid hWF _ _
    exact ⟨hWF, rfl, fun id' => by simp⟩
  | cons id₀ rest ih =>
    intro db newSid hWF hnd hex
    rw [List.nodup_cons] at hnd
    obtain ⟨e₀, hget⟩ := Option.isSome_iff_exists.mp (hex id₀ (List.mem_cons_self _ _))
    have hWF₁ := WF_updateSchemaOne hWF newSid id₀
    have hchar₁ := getEntry_updateSchemaOne hWF.1 hget newSid
    have htab₁ := updateSchemaOne_tableTasks newSid db id₀
    have hex₁ : ∀ id ∈ rest, (getEntry (updateSchemaOne newSid db id₀) id).isSome := by
      intro id hid
      rw [hchar₁ id, if_neg (fun hc => hnd.1 (by rw [← hc]; exact hid))]
      exact hex id (List.mem_cons_of_mem _ hid)
    obtain ⟨ihWF, ihtab, ihchar⟩ := ih (updateSchemaOne newSid db id₀) newSid hWF₁ hnd.2 hex₁
    refine ⟨?_, ?_, ?_⟩
    · rw [List.foldl_cons]
      exact ihWF
    · rw [List.foldl_cons, ihtab, htab₁]
    · intro id'
      rw [List.foldl_cons, ihchar id']
      by_cases hmem : id' ∈ rest
      · rw [if_pos hmem, if_pos (List.mem_cons_of_mem _ hmem), hchar₁ id',
          if_neg (fun hc => hnd.1 (by rw [← hc]; exact hmem))]
      · rw [if_neg hmem, hchar₁ id']
        by_cases heq : id' = id₀
        · rw [if_pos heq, if_pos (by rw [heq]; exact List.mem_cons_self _ _), heq, hget]
          rfl
        · rw [if_neg heq, if_neg (by
            intro hc
            rcases List.mem_cons.mp hc with h | h
            · exact heq h
            · exact hmem h)]

theorem filterMap_map_of_pointwise {α β : Type} (l : List α) (f g : α → Option β)
    (h : β → β) (hpt : ∀ a ∈ l, g a = (f a).map h) :
    l.filterMap g = (l.filterMap f).map h := by
  induction l with
  | nil => rfl
  | cons a rest ih =>
    rw [List.filterMap_cons, List.filterMap_cons, hpt a (List.mem_cons_self _ _)]
    cases f a with
    | none =>
      exact ih (fun x hx => hpt x (List.mem_cons_of_mem _ hx))
    | some b =>
      rw [Option.map_some', List.map_cons]
      rw [ih (fun x hx => hpt x (List.mem_cons_of_mem _ hx))]

/-- C5: on a well-formed database, `UpdateSchemaID(t, s')` gives every span of
table `t` schema id `s'`, leaves it indexed in `schemaTasks` only under `s'`
(inner maps that became empty are pruned), and `GetTasksByTableIDs(t)`
returns the same tasks as before the call (same dispatcher ids, the spans
differing only in their updated schema id). -/
theorem claim_C5_updateSchemaID (db : ReplicationDB) (t : TableID) (s' : SchemaID)
    (hWF : WF db) :
    (∀ e ∈ (UpdateSchemaID db t s').allTasks, e.span.span.tableID = t →
      e.span.schemaID = s') ∧
    (∀ p ∈ (UpdateSchemaID db t s').schemaTasks, p.1 ≠ s' → ∀ id ∈ p.2,
      ∀ e ∈ (UpdateSchemaID db t s').allTasks, e.span.id = id →
        e.span.span.tableID ≠ t) ∧
    (∀ p ∈ (UpdateSchemaID db t s').schemaTasks, p.2 ≠ []) ∧
    (GetTasksByTableIDs (UpdateSchemaID db t s') [t] =
      (GetTasksByTableIDs db [t]).map (fun sp => { sp with schemaID := s' })) ∧
    ((GetTasksByTableIDs (UpdateSchemaID db t s') [t]).map (fun sp => sp.id) =
      (GetTasksByTableIDs db [t]).map (fun sp => sp.id)) := by
  obtain ⟨hndl, hexl⟩ := idxLookup_table_props hWF t
  have hexs : ∀ id ∈ idxLookup db.tableTasks t, (getEntry db id).isSome := by
    intro id hid
    obtain ⟨e, hemem, heid⟩ := hexl id hid
    rw [getEntry_of_mem hWF.1 hemem id heid]
    rfl
  obtain ⟨hWFf, htabf, hcharf⟩ :=
    updateSchemaID_fold_spec (idxLookup db.tableTasks t) db s' hWF hndl hexs
  have hWF' : WF (UpdateSchemaID db t s') := hWFf
  have htab' : (UpdateSchemaID db t s').tableTasks = db.tableTasks := htabf
  have hchar' : ∀ id', getEntry (UpdateSchemaID db t s') id' =
      if id' ∈ idxLookup db.tableTasks t then
        (getEntry db id').map
          (fun e => { span := { e.span with schemaID := s' }, state := e.state })
      else getEntry db id' := hcharf
  have hmain : ∀ e ∈ (UpdateSchemaID db t s').allTasks, e.span.span.tableID = t →
      e.span.schemaID = s' := by
    intro e he htabe
    have hide : getEntry (UpdateSchemaID db t s') e.span.id = some e :=
      getEntry_of_mem hWF'.1 he _ rfl
    rw [hchar' e.span.id] at hide
    by_cases hin : e.span.id ∈ idxLookup db.tableTasks t
    · rw [if_pos hin] at hide
      obtain ⟨e₀, _, hupd⟩ := Option.map_eq_some'.mp hide
      rw [← hupd]
    · rw [if_neg hin] at hide
      obtain ⟨hemem, _⟩ := getEntry_some_mem hide
      exact absurd ((mem_table_lookup_iff hWF hemem t).mpr htabe) hin
  refine ⟨hmain, ?_, ?_, ?_, ?_⟩
  · intro p hp hpne id hid e hemem heid hcontra
    obtain ⟨_, _, hcomp⟩ := hWF'.2.2.2.2.1 p hp
    obtain ⟨e₂, he₂mem, he₂id, he₂sch⟩ := hcomp id hid
    have he₂e : e₂ = e := List.inj_on_of_nodup_map hWF'.1 he₂mem hemem (by rw [he₂id, heid])
    rw [he₂e] at he₂sch
    exact hpne (by rw [← he₂sch, hmain e hemem hcontra])
  · intro p hp
    exact (hWF'.2.2.2.2.1 p hp).1
  · have hsingle : ∀ (d : ReplicationDB), GetTasksByTableIDs d [t] =
        (idxLookup d.tableTasks t).filterMap (fun id => GetTaskByID d id) := by
      intro d
      show List.foldl _ [] [t] = _
      rw [List.foldl_cons]
      show List.foldl _ ([] ++ _) [] = _
      rw [List.foldl_nil, List.nil_append]
    rw [hsingle, hsingle, htab']
    refine filterMap_map_of_pointwise _ _ _ _ ?_
    intro id hid
    show GetTaskByID (UpdateSchemaID db t s') id = _
    unfold GetTaskByID
    rw [hchar' id, if_pos hid]
    cases getEntry db id with
    | none => rfl
    | some e => rfl
  · have h4 : GetTasksByTableIDs (UpdateSchemaID db t s') [t] =
        (GetTasksByTableIDs db [t]).map (fun sp => { sp with schemaID := s' }) := by
      have hsingle : ∀ (d : ReplicationDB), GetTasksByTableIDs d [t] =
          (idxLookup d.tableTasks t).filterMap (fun id => GetTaskByID d id) := by
        intro d
        show List.foldl _ [] [t] = _
        rw [List.foldl_cons]
        show List.foldl _ ([] ++ _) [] = _
        rw [List.foldl_nil, List.nil_append]
      rw [hsingle, hsingle, htab']
      refine filterMap_map_of_pointwise _ _ _ _ ?_
      intro id hid
      show GetTaskByID (UpdateSchemaID db t s') id = _
      unfold GetTaskByID
      rw [hchar' id, if_pos hid]
      cases getEntry db id with
      | none => rfl
      | some e => rfl
    rw [h4, List.map_map]
    refine List.map_congr_left ?_
    intro sp _
    rfl

theorem claim_C5_witness :
    GetTasksByTableIDs (UpdateSchemaID wDB3 42 9) [42] =
      (GetTasksByTableIDs wDB3 [42]).map (fun sp => { sp with schemaID := 9 }) ∧
    (∀ p ∈ (UpdateSchemaID wDB3 42 9).schemaTasks, p.2 ≠ []) :=
  ⟨(claim_C5_updateSchemaID wDB3 42 9 (by decide)).2.2.2.1,
   (claim_C5_updateSchemaID wDB3 42 9 (by decide)).2.2.1⟩

/-! ### Barrier engine (the `maintainer` code in tso_client.go) -/

inductive InfluenceType where
  | Normal
  | DB
  | All
deriving DecidableEq

inductive ActionType where
  | Write
  | Pass
deriving DecidableEq

structure InfluencedTables where
  influenceType : InfluenceType
  tableIDs : List TableID
  schemaID : SchemaID
deriving DecidableEq

structure DispatcherAct where
  action : ActionType
  commitTs : Nat
  isSyncPoint : Bool
deriving DecidableEq

structure InfluencedDispatchers where
  influenceType : InfluenceType
  dispatcherIDs : List DispatcherID
  schemaID : SchemaID
  excludeDispatcherId : Option DispatcherID
deriving DecidableEq

structure DispatcherStatus where
  influencedDispatchers : InfluencedDispatchers
  action : Option DispatcherAct
deriving DecidableEq

structure TargetMessage where
  target : NodeID
  statuses : List DispatcherStatus
deriving DecidableEq

/-- Modelled from the spec: the sentinel table id carried by the DDL span
(`heartbeatpb.DDLSpan.TableID`, outside the given sources). -/
def ddlSpanTableID : TableID := 0

/-- Modelled from the spec: the two range-checker variants of the
`range_checker` package (outside the given sources).  The count checker
stores the expected number of distinct reporting table ids; the span checker
stores the expected table ids and the reported sub-ranges. -/
inductive RangeChecker where
  | tableCount (expected : Nat) (reported : List TableID)
  | tableSpan (tables : List TableID) (reported : List (TableID × Nat × Nat))
deriving DecidableEq

def NewTableCountChecker (n : Nat) : RangeChecker := RangeChecker.tableCount n []

def NewTableSpanRangeChecker (tbls : List TableID) : RangeChecker :=
  RangeChecker.tableSpan tbls []

def RangeChecker.addSubRange : RangeChecker → TableID → Nat → Nat → RangeChecker
  | RangeChecker.tableCount n rep, tid, _, _ => RangeChecker.tableCount n (tid :: rep)
  | RangeChecker.tableSpan tbls rep, tid, s, e => RangeChecker.tableSpan tbls ((tid, s, e) :: rep)

def RangeChecker.reset : RangeChecker → RangeChecker
  | RangeChecker.tableCount n _ => RangeChecker.tableCount n []
  | RangeChecker.tableSpan tbls _ => RangeChecker.tableSpan tbls []

/-- Modelled from the spec: the abstract key space of one table is [0, 2^64). -/
def keySpaceEnd : Nat := 2 ^ 64

def extendReach (ranges : List (Nat × Nat)) (reach : Nat) : Nat :=
  ranges.foldl (fun r p => if p.1 ≤ r ∧ r < p.2 then max r p.2 else r) reach

/-- Modelled from the spec: the reported sub-ranges cover the whole key space
iff their union, merged greedily, reaches `keySpaceEnd` from 0. -/
def coversAll (ranges : List (Nat × Nat)) : Bool :=
  keySpaceEnd ≤ (List.range (ranges.length + 1)).foldl (fun r _ => extendReach ranges r) 0

/-- Modelled from the spec: `isFullyCovered`.  The count checker is full when
the expected number of distinct table ids reported; the span checker when
every expected table's interval set collapses to the full range. -/
def RangeChecker.isFullyCovered : RangeChecker → Bool
  | RangeChecker.tableCount n rep => n ≤ rep.dedup.length
  | RangeChecker.tableSpan tbls rep =>
    tbls.all (fun t => coversAll ((rep.filter (fun r => r.1 == t)).map (fun r => r.2)))

/-- `heartbeatpb.State`: the block-event payload of a heartbeat.  Tables are
(schema id, table id) pairs, schema changes are (table id, new schema id). -/
structure BlockState where
  blockTs : Nat
  blockTables : Option InfluencedTables
  needAddedTables : List (SchemaID × TableID)
  needDroppedTables : Option InfluencedTables
  updatedSchemas : List (TableID × SchemaID)
  isSyncPoint : Bool
deriving DecidableEq

/-- `BarrierEvent` (tso_client.go:83). -/
structure BarrierEvent where
  cfID : Nat
  commitTs : Nat
  selected : Bool
  hasNewTable : Bool
  tableTriggerDispatcherRelated : Bool
  writerDispatcher : DispatcherID
  writerDispatcherAdvanced : Bool
  blockedDispatchers : Option InfluencedTables
  dropDispatchers : Option InfluencedTables
  newTables : List (SchemaID × TableID)
  schemaIDChange : List (TableID × SchemaID)
  isSyncPoint : Bool
  dynamicSplitEnabled : Bool
  rangeChecker : Option RangeChecker
  lastResendTime : Nat
  lastWarningLogTime : Nat
deriving DecidableEq

/-- The slice of the `Controller` that the barrier event consults: the
replication database, the alive node set of the node manager, and the id of
the table trigger (DDL) dispatcher. -/
structure BarrierCtx where
  db : ReplicationDB
  aliveNodes : List NodeID
  ddlDispatcherID : DispatcherID
deriving DecidableEq

/-- `NewBlockEvent` (tso_client.go:109).  Time is in milliseconds; `now`
stands for `time.Now()` and the zero `lastResendTime` for `time.Time{}`. -/
def NewBlockEvent (cfID : Nat) (ctx : BarrierCtx) (status : BlockState)
    (dynamicSplitEnabled : Bool) (now : Nat) : BarrierEvent :=
  { cfID := cfID
    commitTs := status.blockTs
    selected := false
    hasNewTable := decide (0 < status.needAddedTables.length)
    tableTriggerDispatcherRelated := false
    writerDispatcher := 0
    writerDispatcherAdvanced := false
    blockedDispatchers := status.blockTables
    dropDispatchers := status.needDroppedTables
    newTables := status.needAddedTables
    schemaIDChange := status.updatedSchemas
    isSyncPoint := status.isSyncPoint
    dynamicSplitEnabled := dynamicSplitEnabled
    lastResendTime := 0
    lastWarningLogTime := now
    rangeChecker :=
      match status.blockTables with
      | none => none
      | some bt =>
        match bt.influenceType with
        | InfluenceType.Normal =>
          if dynamicSplitEnabled then some (NewTableSpanRangeChecker bt.tableIDs)
          else some (NewTableCountChecker bt.tableIDs.length)
        | InfluenceType.DB =>
          if dynamicSplitEnabled then
            some (NewTableSpanRangeChecker
              ((GetTasksBySchemaID ctx.db bt.schemaID).map (fun rep => rep.span.tableID) ++
                [ddlSpanTableID]))
          else some (NewTableCountChecker (GetTaskSizeBySchemaID ctx.db bt.schemaID + 1))
        | InfluenceType.All =>
          if dynamicSplitEnabled then
            some (NewTableSpanRangeChecker
              ((GetAllTasks ctx.db).map (fun rep => rep.span.tableID) ++ [ddlSpanTableID]))
          else some (NewTableCountChecker (TaskSize ctx.db)) }

/-- `allDispatcherReported` (tso_client.go:274); `none` embeds the nil-checker
panic. -/
def allDispatcherReported (be : BarrierEvent) : Option Bool :=
  match be.rangeChecker with
  | none => none
  | some rc => some rc.isFullyCovered

/-- `onAllDispatcherReportedBlockEvent` (tso_client.go:175).  `none` embeds
the panics: a nil `blockedDispatchers`, the `dispatchers[len-1]` access on an
empty batch, and a nil range checker at `Reset`. -/
def onAllDispatcherReportedBlockEvent (be : BarrierEvent) (ddlDispatcherID : DispatcherID)
    (dispatchers : List DispatcherID) : Option (BarrierEvent × DispatcherStatus) :=
  match be.blockedDispatchers with
  | none => none
  | some bd =>
    match (match bd.influenceType with
      | InfluenceType.DB => some ddlDispatcherID
      | InfluenceType.All => some ddlDispatcherID
      | InfluenceType.Normal =>
        match dispatchers.getLast? with
        | none => none
        | some last =>
          some (if be.tableTriggerDispatcherRelated then ddlDispatcherID else last)) with
    | none => none
    | some w =>
      match be.rangeChecker with
      | none => none
      | some rc =>
        some ({ be with
            rangeChecker := some rc.reset
            selected := true
            writerDispatcher := w },
          { influencedDispatchers :=
              { influenceType := InfluenceType.Normal
                dispatcherIDs := [w]
                schemaID := 0
                excludeDispatcherId := none }
            action := some
              { action := ActionType.Write
                commitTs := be.commitTs
                isSyncPoint := be.isSyncPoint } })

def newWriterActionMessage (be : BarrierEvent) (capture : NodeID) : TargetMessage :=
  { target := capture
    statuses := [{
      influencedDispatchers :=
        { influenceType := InfluenceType.Normal
          dispatcherIDs := [be.writerDispatcher]
          schemaID := 0
          excludeDispatcherId := none }
      action := some
        { action := ActionType.Write
          commitTs := be.commitTs
          isSyncPoint := be.isSyncPoint } }] }

def newPassActionMessage (be : BarrierEvent) (bd : InfluencedTables) (capture : NodeID) :
    TargetMessage :=
  { target := capture
    statuses := [{
      influencedDispatchers :=
        { influenceType := bd.influenceType
          dispatcherIDs := []
          schemaID := bd.schemaID
          excludeDispatcherId := some be.writerDispatcher }
      action := some
        { action := ActionType.Pass
          commitTs := be.commitTs
          isSyncPoint := be.isSyncPoint } }] }

def msgLookup (m : List (NodeID × TargetMessage)) (k : NodeID) : Option TargetMessage :=
  match m.find? (fun p => p.1 == k) with
  | some p => some p.2
  | none => none

def msgInsert (m : List (NodeID × TargetMessage)) (k : NodeID) (v : TargetMessage) :
    List (NodeID × TargetMessage) :=
  if (m.find? (fun p => p.1 == k)).isSome then
    m.map (fun p => if p.1 == k then (p.1, v) else p)
  else m ++ [(k, v)]

/-- Appending a dispatcher id to
`msg.Message[0].DispatcherStatuses[0].InfluencedDispatchers.DispatcherIDs`
(tso_client.go:320). -/
def appendDispatcher (msg : TargetMessage) (id : DispatcherID) : TargetMessage :=
  match msg.statuses with
  | [] => msg
  | st :: rest =>
    { msg with statuses :=
      { st with influencedDispatchers :=
        { st.influencedDispatchers with
          dispatcherIDs := st.influencedDispatchers.dispatcherIDs ++ [id] } } :: rest }

/-- `sendPassAction` (tso_client.go:278): one pass message per destination
node, built over the tasks matching the influence scope; shared messages are
mutated in place, embedded here as an overwrite of the map slot. -/
def sendPassAction (be : BarrierEvent) (ctx : BarrierCtx) : List TargetMessage :=
  match be.blockedDispatchers with
  | none => []
  | some bd =>
    let msgMap : List (NodeID × TargetMessage) :=
      match bd.influenceType with
      | InfluenceType.DB =>
        (GetTasksBySchemaID ctx.db bd.schemaID).foldl
          (fun m stm =>
            if stm.nodeID = "" then m
            else match msgLookup m stm.nodeID with
              | some _ => m
              | none => msgInsert m stm.nodeID (newPassActionMessage be bd stm.nodeID))
          []
      | InfluenceType.All =>
        ctx.aliveNodes.foldl (fun m n => msgInsert m n (newPassActionMessage be bd n)) []
      | InfluenceType.Normal =>
        (GetTasksByTableIDs ctx.db bd.tableIDs).foldl
          (fun m stm =>
            if stm.id = be.writerDispatcher then m
            else match msgLookup m stm.nodeID with
              | some msg => msgInsert m stm.nodeID (appendDispatcher msg stm.id)
              | none => msgInsert m stm.nodeID
                  (appendDispatcher (newPassActionMessage be bd stm.nodeID) stm.id))
          []
    msgMap.map (fun p => p.2)

/-- The deferred diagnostic log of `resend` (tso_client.go:336): at most one
warning per ten seconds, tracked in `lastWarningLogTime`. -/
def warnUpd (now : Nat) (b : BarrierEvent) : BarrierEvent :=
  if 10000 < now - b.lastWarningLogTime then { b with lastWarningLogTime := now } else b

/-- `resend` (tso_client.go:331).  Time is in milliseconds; the deferred
diagnostic log is embedded as the `warnUpd` update of `lastWarningLogTime`,
which is registered only after the once-per-second rate limit check. -/
def resend (be : BarrierEvent) (ctx : BarrierCtx) (now : Nat) :
    BarrierEvent × List TargetMessage :=
  if now - be.lastResendTime < 1000 then (be, [])
  else if be.selected = false then (warnUpd now be, [])
  else
    let be₁ := { be with lastResendTime := now }
    if be.writerDispatcherAdvanced = false then
      match GetTaskByID ctx.db be.writerDispatcher with
      | none => (warnUpd now be₁, [])
      | some stm =>
        if stm.nodeID = "" then (warnUpd now be₁, [])
        else (warnUpd now be₁, [newWriterActionMessage be₁ stm.nodeID])
    else (warnUpd now be₁, sendPassAction be₁ ctx)

/-- The message output of a sequence of resend ticks, threading the event
state. -/
def resendTrace (ctx : BarrierCtx) : BarrierEvent → List Nat → List (List TargetMessage)
  | _, [] => []
  | be, t :: ts => (resend be ctx t).2 :: resendTrace ctx (resend be ctx t).1 ts

/-! ### Controller status handling (maintainer_controller.go) -/

inductive ComponentState where
  | Absent
  | Preparing
  | Working
  | Stopped
deriving DecidableEq

/-- `heartbeatpb.TableSpanStatus`: one dispatcher's report in a heartbeat. -/
structure TableSpanStatus where
  id : DispatcherID
  componentStatus : ComponentState
  checkpointTs : Nat
deriving DecidableEq

/-- `replica.NewRemoveDispatcherMessage(from, changefeedID, status.ID)`. -/
structure RemoveDispatcherMsg where
  target : NodeID
  changefeedID : Nat
  dispatcher : DispatcherID
deriving DecidableEq

/-- The slice of `Controller` that `HandleStatus` consults: the replication
database and the set of dispatcher ids with a live operator in the operator
controller. -/
structure CtrlState where
  changefeedID : Nat
  db : ReplicationDB
  operatorIDs : List DispatcherID
deriving DecidableEq

/-- Modelled from the spec: `ReplicationDB.UpdateStatus` records the newly
reported watermark on the stored span (its body is outside the given
sources; only that it rewrites the stored span's checkpoint is modelled). -/
def dbUpdateStatus (db : ReplicationDB) (id : DispatcherID) (ckpt : Nat) : ReplicationDB :=
  match getEntry db id with
  | none => db
  | some e =>
    { db with allTasks :=
        upsertTask db.allTasks { span := { e.span with checkpointTs := ckpt }, state := e.state } }

/-- The loop body of `Controller.HandleStatus` (maintainer_controller.go:109).
`UpdateOperatorStatus` only advances operator-internal progress, which is not
part of the modelled state. -/
def handleOneStatus (c : CtrlState) (sender : NodeID) (status : TableSpanStatus) :
    CtrlState × List RemoveDispatcherMsg :=
  match GetTaskByID c.db status.id with
  | none =>
    if status.componentStatus ≠ ComponentState.Working then (c, [])
    else if status.id ∈ c.operatorIDs then (c, [])
    else (c, [{ target := sender, changefeedID := c.changefeedID, dispatcher := status.id }])
  | some stm =>
    if stm.nodeID ≠ sender then (c, [])
    else ({ c with db := dbUpdateStatus c.db status.id status.checkpointTs }, [])

/-- `Controller.HandleStatus` (maintainer_controller.go:108), collecting the
`RemoveDispatcher` commands it sends. -/
def HandleStatus (c : CtrlState) (sender : NodeID) (statusList : List TableSpanStatus) :
    CtrlState × List RemoveDispatcherMsg :=
  statusList.foldl
    (fun acc status =>
      ((handleOneStatus acc.1 sender status).1, acc.2 ++ (handleOneStatus acc.1 sender status).2))
    (c, [])

/-! ### Barrier and controller claim support -/

theorem NewBlockEvent_rangeChecker (cfID : Nat) (ctx : BarrierCtx) (status : BlockState)
    (dse : Bool) (now : Nat) :
    (NewBlockEvent cfID ctx status dse now).rangeChecker =
      match status.blockTables with
      | none => none
      | some bt =>
        match bt.influenceType with
        | InfluenceType.Normal =>
          if dse then some (NewTableSpanRangeChecker bt.tableIDs)
          else some (NewTableCountChecker bt.tableIDs.length)
        | InfluenceType.DB =>
          if dse then
            some (NewTableSpanRangeChecker
              ((GetTasksBySchemaID ctx.db bt.schemaID).map (fun rep => rep.span.tableID) ++
                [ddlSpanTableID]))
          else some (NewTableCountChecker (GetTaskSizeBySchemaID ctx.db bt.schemaID + 1))
        | InfluenceType.All =>
          if dse then
            some (NewTableSpanRangeChecker
              ((GetAllTasks ctx.db).map (fun rep => rep.span.tableID) ++ [ddlSpanTableID]))
          else some (NewTableCountChecker (TaskSize ctx.db)) := rfl

/-- **C6.** For every newly created block event whose block tables are `bd`:
with influence type DB and dynamic split disabled, the range checker is a
count checker expecting the number of tasks in schema `bd.schemaID` plus
one; with influence type All and dynamic split enabled, the span checker's
expected table-id set is the table ids of all current tasks together with
the DDL sentinel id (so it contains the sentinel and every current task's
table id); with influence type All and split disabled, the count checker
expects the total task count. -/
theorem claim_C6_rangeChecker (cfID : Nat) (ctx : BarrierCtx) (status : BlockState)
    (bd : InfluencedTables) (now : Nat)
    (hbt : status.blockTables = some bd) :
    (bd.influenceType = InfluenceType.DB →
      (NewBlockEvent cfID ctx status false now).rangeChecker =
        some (RangeChecker.tableCount (GetTaskSizeBySchemaID ctx.db bd.schemaID + 1) [])) ∧
    (bd.influenceType = InfluenceType.All →
      ∃ tbls,
        (NewBlockEvent cfID ctx status true now).rangeChecker =
          some (RangeChecker.tableSpan tbls []) ∧
        tbls = (GetAllTasks ctx.db).map (fun rep => rep.span.tableID) ++ [ddlSpanTableID] ∧
        ddlSpanTableID ∈ tbls ∧
        ∀ rep ∈ GetAllTasks ctx.db, rep.span.tableID ∈ tbls) ∧
    (bd.influenceType = InfluenceType.All →
      (NewBlockEvent cfID ctx status false now).rangeChecker =
        some (RangeChecker.tableCount (TaskSize ctx.db) [])) := by
  obtain ⟨it, tids, sid⟩ := bd
  refine ⟨fun h1 => ?_, fun h1 => ?_, fun h1 => ?_⟩
  · have h1' : it = InfluenceType.DB := h1
    subst h1'
    rw [NewBlockEvent_rangeChecker, hbt]
    rfl
  · have h1' : it = InfluenceType.All := h1
    subst h1'
    refine ⟨(GetAllTasks ctx.db).map (fun rep => rep.span.tableID) ++ [ddlSpanTableID],
      ?_, rfl, ?_, ?_⟩
    · rw [NewBlockEvent_rangeChecker, hbt]
      rfl
    · exact List.mem_append_right _ (List.mem_singleton.mpr rfl)
    · intro rep hrep
      exact List.mem_append_left _ (List.mem_map_of_mem _ hrep)
  · have h1' : it = InfluenceType.All := h1
    subst h1'
    rw [NewBlockEvent_rangeChecker, hbt]
    rfl

/-- Concrete barrier fixtures. -/
def wCtx : BarrierCtx :=
  { db := wDB3
    aliveNodes := ["node1", "nodeB"]
    ddlDispatcherID := 100 }

def wBD_DB : InfluencedTables :=
  { influenceType := InfluenceType.DB
    tableIDs := []
    schemaID := 7 }

def wBD_N : InfluencedTables :=
  { influenceType := InfluenceType.Normal
    tableIDs := [42]
    schemaID := 7 }

def wBD_All : InfluencedTables :=
  { influenceType := InfluenceType.All
    tableIDs := []
    schemaID := 0 }

def wStatusDB : BlockState :=
  { blockTs := 500
    blockTables := some wBD_DB
    needAddedTables := []
    needDroppedTables := none
    updatedSchemas := []
    isSyncPoint := false }

def wStatusAll : BlockState :=
  { wStatusDB with blockTables := some wBD_All }

theorem claim_C6_witness :
    (NewBlockEvent 1 wCtx wStatusDB false 0).rangeChecker =
      some (RangeChecker.tableCount (GetTaskSizeBySchemaID wCtx.db wBD_DB.schemaID + 1) []) ∧
    (∃ tbls,
      (NewBlockEvent 1 wCtx wStatusAll true 0).rangeChecker =
        some (RangeChecker.tableSpan tbls []) ∧
      tbls = (GetAllTasks wCtx.db).map (fun rep => rep.span.tableID) ++ [ddlSpanTableID] ∧
      ddlSpanTableID ∈ tbls ∧
      ∀ rep ∈ GetAllTasks wCtx.db, rep.span.tableID ∈ tbls) ∧
    (NewBlockEvent 1 wCtx wStatusAll false 0).rangeChecker =
      some (RangeChecker.tableCount (TaskSize wCtx.db) []) :=
  ⟨(claim_C6_rangeChecker 1 wCtx wStatusDB wBD_DB 0 rfl).1 rfl,
   (claim_C6_rangeChecker 1 wCtx wStatusAll wBD_All 0 rfl).2.1 rfl,
   (claim_C6_rangeChecker 1 wCtx wStatusAll wBD_All 0 rfl).2.2 rfl⟩

/-- **C2.** For every barrier event whose coverage is reached
(`allDispatcherReported` returns true): if the influence type is DB or All
the elected writer is the DDL (table trigger) dispatcher, for every reported
batch; if it is Normal the writer is the last dispatcher of the batch,
except that it is the DDL dispatcher when `tableTriggerDispatcherRelated`
is flagged.  After election `selected` is true, the range checker is reset,
and the returned `DispatcherStatus` carries a Write action targeting exactly
the writer dispatcher. -/
theorem claim_C2_writer_election (be : BarrierEvent) (ddlDispatcherID : DispatcherID)
    (bd : InfluencedTables)
    (hbd : be.blockedDispatchers = some bd)
    (hcov : allDispatcherReported be = some true) :
    (∀ dispatchers : List DispatcherID,
      bd.influenceType = InfluenceType.DB ∨ bd.influenceType = InfluenceType.All →
      ∃ be' status,
        onAllDispatcherReportedBlockEvent be ddlDispatcherID dispatchers = some (be', status) ∧
        be'.writerDispatcher = ddlDispatcherID ∧
        be'.selected = true ∧
        (∃ rc, be.rangeChecker = some rc ∧ be'.rangeChecker = some rc.reset) ∧
        status.influencedDispatchers.dispatcherIDs = [be'.writerDispatcher] ∧
        status.action =
          some { action := ActionType.Write, commitTs := be.commitTs, isSyncPoint := be.isSyncPoint }) ∧
    (∀ (dispatchers : List DispatcherID) (last : DispatcherID),
      bd.influenceType = InfluenceType.Normal →
      dispatchers.getLast? = some last →
      ∃ be' status,
        onAllDispatcherReportedBlockEvent be ddlDispatcherID dispatchers = some (be', status) ∧
        be'.writerDispatcher =
          (if be.tableTriggerDispatcherRelated then ddlDispatcherID else last) ∧
        be'.selected = true ∧
        (∃ rc, be.rangeChecker = some rc ∧ be'.rangeChecker = some rc.reset) ∧
        status.influencedDispatchers.dispatcherIDs = [be'.writerDispatcher] ∧
        status.action =
          some { action := ActionType.Write, commitTs := be.commitTs, isSyncPoint := be.isSyncPoint }) := by
  rcases hrc : be.rangeChecker with _ | rc
  · rw [allDispatcherReported, hrc] at hcov
    cases hcov
  · obtain ⟨it, tids, sid⟩ := bd
    constructor
    · intro dispatchers h
      have hres : onAllDispatcherReportedBlockEvent be ddlDispatcherID dispatchers =
          some ({ be with
              rangeChecker := some rc.reset
              selected := true
              writerDispatcher := ddlDispatcherID },
            { influencedDispatchers :=
                { influenceType := InfluenceType.Normal
                  dispatcherIDs := [ddlDispatcherID]
                  schemaID := 0
                  excludeDispatcherId := none }
              action := some
                { action := ActionType.Write
                  commitTs := be.commitTs
                  isSyncPoint := be.isSyncPoint } }) := by
        rcases h with h | h
        · have h' : it = InfluenceType.DB := h
          subst h'
          rw [onAllDispatcherReportedBlockEvent, hbd, hrc]
        · have h' : it = InfluenceType.All := h
          subst h'
          rw [onAllDispatcherReportedBlockEvent, hbd, hrc]
      exact ⟨_, _, hres, rfl, rfl, ⟨rc, rfl, rfl⟩, rfl, rfl⟩
    · intro dispatchers last h hlast
      have h' : it = InfluenceType.Normal := h
      subst h'
      have hres : onAllDispatcherReportedBlockEvent be ddlDispatcherID dispatchers =
          some ({ be with
              rangeChecker := some rc.reset
              selected := true
              writerDispatcher :=
                if be.tableTriggerDispatcherRelated then ddlDispatcherID else last },
            { influencedDispatchers :=
                { influenceType := InfluenceType.Normal
                  dispatcherIDs :=
                    [if be.tableTriggerDispatcherRelated then ddlDispatcherID else last]
                  schemaID := 0
                  excludeDispatcherId := none }
              action := some
                { action := ActionType.Write
                  commitTs := be.commitTs
                  isSyncPoint := be.isSyncPoint } }) := by
        rw [onAllDispatcherReportedBlockEvent, hbd, hrc, hlast]
      exact ⟨_, _, hres, rfl, rfl, ⟨rc, rfl, rfl⟩, rfl, rfl⟩

def wRC0 : RangeChecker := RangeChecker.tableSpan [] []

def wBE_DB : BarrierEvent :=
  { cfID := 1
    commitTs := 500
    selected := false
    hasNewTable := false
    tableTriggerDispatcherRelated := false
    writerDispatcher := 0
    writerDispatcherAdvanced := false
    blockedDispatchers := some wBD_DB
    dropDispatchers := none
    newTables := []
    schemaIDChange := []
    isSyncPoint := false
    dynamicSplitEnabled := false
    rangeChecker := some wRC0
    lastResendTime := 0
    lastWarningLogTime := 0 }

def wBE_N : BarrierEvent :=
  { wBE_DB with blockedDispatchers := some wBD_N }

theorem claim_C2_witness :
    (∃ be' status,
      onAllDispatcherReportedBlockEvent wBE_DB 100 [] = some (be', status) ∧
      be'.writerDispatcher = 100 ∧
      be'.selected = true ∧
      (∃ rc, wBE_DB.rangeChecker = some rc ∧ be'.rangeChecker = some rc.reset) ∧
      status.influencedDispatchers.dispatcherIDs = [be'.writerDispatcher] ∧
      status.action =
        some { action := ActionType.Write, commitTs := wBE_DB.commitTs,
               isSyncPoint := wBE_DB.isSyncPoint }) ∧
    (∃ be' status,
      onAllDispatcherReportedBlockEvent wBE_N 100 [7, 9] = some (be', status) ∧
      be'.writerDispatcher = (if wBE_N.tableTriggerDispatcherRelated then 100 else 9) ∧
      be'.selected = true ∧
      (∃ rc, wBE_N.rangeChecker = some rc ∧ be'.rangeChecker = some rc.reset) ∧
      status.influencedDispatchers.dispatcherIDs = [be'.writerDispatcher] ∧
      status.action =
        some { action := ActionType.Write, commitTs := wBE_N.commitTs,
               isSyncPoint := wBE_N.isSyncPoint }) :=
  ⟨(claim_C2_writer_election wBE_DB 100 wBD_DB rfl rfl).1 [] (Or.inl rfl),
   (claim_C2_writer_election wBE_N 100 wBD_N rfl rfl).2 [7, 9] 9 rfl rfl⟩

theorem warnUpd_lastResendTime (now : Nat) (b : BarrierEvent) :
    (warnUpd now b).lastResendTime = b.lastResendTime := by
  unfold warnUpd
  split <;> rfl

theorem warnUpd_selected (now : Nat) (b : BarrierEvent) :
    (warnUpd now b).selected = b.selected := by
  unfold warnUpd
  split <;> rfl

theorem resend_lastResendTime_mono (be : BarrierEvent) (ctx : BarrierCtx) (now : Nat) :
    be.lastResendTime ≤ (resend be ctx now).1.lastResendTime := by
  unfold resend
  by_cases h : now - be.lastResendTime < 1000
  · rw [if_pos h]
  · rw [if_neg h]
    have hle : be.lastResendTime ≤ now := by omega
    by_cases hs : be.selected = false
    · rw [if_pos hs]
      rw [warnUpd_lastResendTime]
    · rw [if_neg hs]
      by_cases ha : be.writerDispatcherAdvanced = false
      · rw [if_pos ha]
        cases hstm : GetTaskByID ctx.db be.writerDispatcher with
        | none =>
          simp only [hstm]
          rw [warnUpd_lastResendTime]
          exact hle
        | some stm =>
          simp only [hstm]
          by_cases hn : stm.nodeID = ""
          · rw [if_pos hn, warnUpd_lastResendTime]
            exact hle
          · rw [if_neg hn, warnUpd_lastResendTime]
            exact hle
      · rw [if_neg ha, warnUpd_lastResendTime]
        exact hle

theorem resend_nonempty_sets (be : BarrierEvent) (ctx : BarrierCtx) (now : Nat)
    (h : (resend be ctx now).2 ≠ []) :
    (resend be ctx now).1.lastResendTime = now ∧ be.lastResendTime + 1000 ≤ now := by
  unfold resend at h ⊢
  by_cases hrl : now - be.lastResendTime < 1000
  · rw [if_pos hrl] at h
    exact absurd rfl h
  · rw [if_neg hrl] at h ⊢
    have hnow : be.lastResendTime + 1000 ≤ now := by omega
    by_cases hs : be.selected = false
    · rw [if_pos hs] at h
      exact absurd rfl h
    · rw [if_neg hs] at h ⊢
      by_cases ha : be.writerDispatcherAdvanced = false
      · rw [if_pos ha] at h ⊢
        cases hstm : GetTaskByID ctx.db be.writerDispatcher with
        | none =>
          rw [hstm] at h
          exact absurd rfl h
        | some stm =>
          simp only [hstm] at h ⊢
          by_cases hn : stm.nodeID = ""
          · rw [if_pos hn] at h
            exact absurd rfl h
          · rw [if_neg hn]
            exact ⟨warnUpd_lastResendTime now _, hnow⟩
      · rw [if_neg ha]
        exact ⟨warnUpd_lastResendTime now _, hnow⟩

theorem resend_ratelimited (be : BarrierEvent) (ctx : BarrierCtx) (now : Nat)
    (h : now < be.lastResendTime + 1000) : (resend be ctx now).2 = [] := by
  unfold resend
  rw [if_pos (by omega : now - be.lastResendTime < 1000)]

theorem resendTrace_gap_lower (ctx : BarrierCtx) :
    ∀ (ts : List Nat) (be : BarrierEvent) (j : Nat) (mj : List TargetMessage) (tj : Nat),
      (resendTrace ctx be ts)[j]? = some mj → mj ≠ [] → ts[j]? = some tj →
      be.lastResendTime + 1000 ≤ tj := by
  intro ts
  induction ts with
  | nil =>
    intro be j mj tj hm _ _
    simp [resendTrace] at hm
  | cons t rest ih =>
    intro be j mj tj hm hne ht
    cases j with
    | zero =>
      rw [resendTrace] at hm
      rw [List.getElem?_cons_zero] at hm ht
      have hmj : (resend be ctx t).2 = mj := by injection hm
      have htj : t = tj := by injection ht
      by_contra hlt
      apply hne
      rw [← hmj]
      exact resend_ratelimited be ctx t (by omega)
    | succ j' =>
      rw [resendTrace] at hm
      rw [List.getElem?_cons_succ] at hm ht
      have hstep := ih (resend be ctx t).1 j' mj tj hm hne ht
      have hmono := resend_lastResendTime_mono be ctx t
      omega

theorem resendTrace_gap (ctx : BarrierCtx) :
    ∀ (ts : List Nat) (be : BarrierEvent) (i j : Nat)
      (mi mj : List TargetMessage) (ti tj : Nat), i < j →
      (resendTrace ctx be ts)[i]? = some mi → (resendTrace ctx be ts)[j]? = some mj →
      mi ≠ [] → mj ≠ [] → ts[i]? = some ti → ts[j]? = some tj →
      ti + 1000 ≤ tj := by
  intro ts
  induction ts with
  | nil =>
    intro be i j mi mj ti tj _ h1 _ _ _ _ _
    simp [resendTrace] at h1
  | cons t rest ih =>
    intro be i j mi mj ti tj hij h1 h2 hne1 hne2 ht1 ht2
    obtain ⟨j', rfl⟩ : ∃ j', j = j' + 1 := ⟨j - 1, by omega⟩
    rw [resendTrace] at h1 h2
    rw [List.getElem?_cons_succ] at h2 ht2
    cases i with
    | zero =>
      rw [List.getElem?_cons_zero] at h1 ht1
      have hmi : (resend be ctx t).2 = mi := by injection h1
      have hti : t = ti := by injection ht1
      have hset := resend_nonempty_sets be ctx t (by rw [hmi]; exact hne1)
      have hlow := resendTrace_gap_lower ctx rest (resend be ctx t).1 j' mj tj h2 hne2 ht2
      omega
    | succ i' =>
      rw [List.getElem?_cons_succ] at h1 ht1
      exact ih (resend be ctx t).1 i' j' mi mj ti tj (by omega) h1 h2 hne1 hne2 ht1 ht2

theorem mem_statuses_writer (be : BarrierEvent) (n : NodeID) (st : DispatcherStatus)
    (h : st ∈ (newWriterActionMessage be n).statuses) :
    st.action =
      some { action := ActionType.Write, commitTs := be.commitTs, isSyncPoint := be.isSyncPoint } := by
  rcases List.mem_singleton.mp h with rfl
  rfl

theorem resend_not_selected (be : BarrierEvent) (ctx : BarrierCtx) (now : Nat)
    (h : be.selected = false) : (resend be ctx now).2 = [] := by
  unfold resend
  by_cases hrl : now - be.lastResendTime < 1000
  · rw [if_pos hrl]
  · rw [if_neg hrl, if_pos h]

theorem resend_not_advanced_write (be : BarrierEvent) (ctx : BarrierCtx) (now : Nat)
    (ha : be.writerDispatcherAdvanced = false) :
    ∀ m ∈ (resend be ctx now).2, ∀ st ∈ m.statuses, ∀ a, st.action = some a →
      a.action = ActionType.Write := by
  unfold resend
  by_cases hrl : now - be.lastResendTime < 1000
  · rw [if_pos hrl]
    intro m hm
    exact absurd hm (List.not_mem_nil m)
  · rw [if_neg hrl]
    by_cases hs : be.selected = false
    · rw [if_pos hs]
      intro m hm
      exact absurd hm (List.not_mem_nil m)
    · rw [if_neg hs, if_pos ha]
      cases hstm : GetTaskByID ctx.db be.writerDispatcher with
      | none =>
        simp only [hstm]
        intro m hm
        exact absurd hm (List.not_mem_nil m)
      | some stm =>
        simp only [hstm]
        by_cases hn : stm.nodeID = ""
        · rw [if_pos hn]
          intro m hm
          exact absurd hm (List.not_mem_nil m)
        · rw [if_neg hn]
          intro m hm st hst a hact
          have hm' : m = newWriterActionMessage { be with lastResendTime := now } stm.nodeID :=
            List.mem_singleton.mp hm
          subst hm'
          have hw := mem_statuses_writer { be with lastResendTime := now } stm.nodeID st hst
          rw [hw] at hact
          injection hact with hae
          subst hae
          rfl

theorem resend_pass_advanced (be : BarrierEvent) (ctx : BarrierCtx) (now : Nat)
    (m : TargetMessage) (st : DispatcherStatus) (a : DispatcherAct)
    (hm : m ∈ (resend be ctx now).2) (hst : st ∈ m.statuses)
    (hact : st.action = some a) (hpass : a.action = ActionType.Pass) :
    be.selected = true ∧ be.writerDispatcherAdvanced = true := by
  unfold resend at hm
  by_cases hrl : now - be.lastResendTime < 1000
  · rw [if_pos hrl] at hm
    exact absurd hm (List.not_mem_nil m)
  · rw [if_neg hrl] at hm
    by_cases hs : be.selected = false
    · rw [if_pos hs] at hm
      exact absurd hm (List.not_mem_nil m)
    · rw [if_neg hs] at hm
      have hsel : be.selected = true := by
        cases hsel' : be.selected
        · exact absurd hsel' hs
        · rfl
      by_cases ha : be.writerDispatcherAdvanced = false
      · rw [if_pos ha] at hm
        exfalso
        cases hstm : GetTaskByID ctx.db be.writerDispatcher with
        | none =>
          rw [hstm] at hm
          exact absurd hm (List.not_mem_nil m)
        | some stm =>
          simp only [hstm] at hm
          by_cases hn : stm.nodeID = ""
          · rw [if_pos hn] at hm
            exact absurd hm (List.not_mem_nil m)
          · rw [if_neg hn] at hm
            have hm' : m = newWriterActionMessage { be with lastResendTime := now } stm.nodeID :=
              List.mem_singleton.mp hm
            subst hm'
            have hw := mem_statuses_writer { be with lastResendTime := now } stm.nodeID st hst
            rw [hw] at hact
            injection hact with hae
            subst hae
            exact ActionType.noConfusion (show ActionType.Write = ActionType.Pass from hpass)
      · have hadv : be.writerDispatcherAdvanced = true := by
          cases ha' : be.writerDispatcherAdvanced
          · exact absurd ha' ha
          · rfl
        exact ⟨hsel, hadv⟩

/-- **C3.** For every barrier event and resend tick sequence: `resend`
emits nothing while `selected` is false; while `writerDispatcherAdvanced`
is false every emitted action is a Write (never a Pass); a Pass action can
only be emitted once `selected` and `writerDispatcherAdvanced` are both
true; and any two non-empty resends of the same event are at least one
second (1000 ms) apart. -/
theorem claim_C3_resend_temporal (ctx : BarrierCtx) :
    (∀ (be : BarrierEvent) (now : Nat), be.selected = false → (resend be ctx now).2 = []) ∧
    (∀ (be : BarrierEvent) (now : Nat), be.writerDispatcherAdvanced = false →
      ∀ m ∈ (resend be ctx now).2, ∀ st ∈ m.statuses, ∀ a, st.action = some a →
        a.action = ActionType.Write) ∧
    (∀ (be : BarrierEvent) (now : Nat) (m : TargetMessage) (st : DispatcherStatus)
        (a : DispatcherAct),
      m ∈ (resend be ctx now).2 → st ∈ m.statuses → st.action = some a →
      a.action = ActionType.Pass →
      be.selected = true ∧ be.writerDispatcherAdvanced = true) ∧
    (∀ (be : BarrierEvent) (ts : List Nat) (i j : Nat)
        (mi mj : List TargetMessage) (ti tj : Nat), i < j →
      (resendTrace ctx be ts)[i]? = some mi → (resendTrace ctx be ts)[j]? = some mj →
      mi ≠ [] → mj ≠ [] → ts[i]? = some ti → ts[j]? = some tj →
      ti + 1000 ≤ tj) :=
  ⟨fun be now h => resend_not_selected be ctx now h,
   fun be now ha => resend_not_advanced_write be ctx now ha,
   fun be now m st a hm hst hact hpass => resend_pass_advanced be ctx now m st a hm hst hact hpass,
   fun be ts i j mi mj ti tj hij h1 h2 hn1 hn2 ht1 ht2 =>
     resendTrace_gap ctx ts be i j mi mj ti tj hij h1 h2 hn1 hn2 ht1 ht2⟩

def wBE_sel : BarrierEvent :=
  { wBE_N with
    selected := true
    writerDispatcher := 210 }

theorem claim_C3_witness :
    (resend wBE_DB wCtx 5000).2 = [] ∧
    (∀ m ∈ (resend wBE_sel wCtx 1000).2, ∀ st ∈ m.statuses, ∀ a, st.action = some a →
      a.action = ActionType.Write) ∧
    (1000 : Nat) + 1000 ≤ 2500 :=
  ⟨(claim_C3_resend_temporal wCtx).1 wBE_DB 5000 rfl,
   (claim_C3_resend_temporal wCtx).2.1 wBE_sel 1000 rfl,
   (claim_C3_resend_temporal wCtx).2.2.2 wBE_sel [1000, 2500] 0 1
     (resend wBE_sel wCtx 1000).2
     (resend (resend wBE_sel wCtx 1000).1 wCtx 2500).2
     1000 2500 (by decide) rfl rfl (by decide) (by decide) rfl rfl⟩

/-- **C7.** For every status handled by `Controller.HandleStatus`: when the
dispatcher id is unknown to the replication database and no operator exists
for it, a `RemoveDispatcher` message is sent to the reporting node exactly
when the reported component state is Working (any other state triggers no
message and no mutation); an unknown id with a live operator triggers
nothing; and when the span is known but its recorded node differs from the
reporting node, the status is ignored (no mutation, no message). -/
theorem claim_C7_handleStatus (c : CtrlState) (sender : NodeID) (status : TableSpanStatus) :
    (GetTaskByID c.db status.id = none → status.id ∉ c.operatorIDs →
      (handleOneStatus c sender status =
          (c, [{ target := sender, changefeedID := c.changefeedID, dispatcher := status.id }]) ↔
        status.componentStatus = ComponentState.Working)) ∧
    (GetTaskByID c.db status.id = none → status.componentStatus ≠ ComponentState.Working →
      handleOneStatus c sender status = (c, [])) ∧
    (GetTaskByID c.db status.id = none → status.id ∈ c.operatorIDs →
      handleOneStatus c sender status = (c, [])) ∧
    (∀ stm, GetTaskByID c.db status.id = some stm → stm.nodeID ≠ sender →
      handleOneStatus c sender status = (c, [])) := by
  refine ⟨?_, ?_, ?_, ?_⟩
  · intro hnone hop
    simp only [handleOneStatus, hnone]
    constructor
    · intro heq
      by_contra hw
      rw [if_pos hw] at heq
      simp at heq
    · intro hw
      rw [if_neg (fun h => h hw), if_neg hop]
  · intro hnone hnw
    simp only [handleOneStatus, hnone]
    rw [if_pos hnw]
  · intro hnone hop
    simp only [handleOneStatus, hnone]
    by_cases hw : status.componentStatus = ComponentState.Working
    · rw [if_neg (fun h => h hw), if_pos hop]
    · rw [if_pos hw]
  · intro stm hsome hne
    simp only [handleOneStatus, hsome]
    rw [if_pos hne]

def wCtrl : CtrlState :=
  { changefeedID := 1
    db := wDB3
    operatorIDs := [77] }

def wStW : TableSpanStatus :=
  { id := 999
    componentStatus := ComponentState.Working
    checkpointTs := 5 }

def wStS : TableSpanStatus :=
  { wStW with componentStatus := ComponentState.Stopped }

def wStM : TableSpanStatus :=
  { id := 210
    componentStatus := ComponentState.Working
    checkpointTs := 5 }

theorem claim_C7_witness :
    handleOneStatus wCtrl "node1" wStW =
      (wCtrl, [{ target := "node1", changefeedID := wCtrl.changefeedID,
                 dispatcher := wStW.id }]) ∧
    handleOneStatus wCtrl "node1" wStS = (wCtrl, []) ∧
    handleOneStatus wCtrl "other" wStM = (wCtrl, []) :=
  ⟨((claim_C7_handleStatus wCtrl "node1" wStW).1 (by decide) (by decide)).mpr rfl,
   (claim_C7_handleStatus wCtrl "node1" wStS).2.1 (by decide) (by decide),
   (claim_C7_handleStatus wCtrl "other" wStM).2.2.2 wS2 (by decide) (by decide)⟩

end TiCDC
